import Mathlib

/-!
Shallow embedding of the javolution OSGi subsystem
(`javolution/internal/osgi/*`, `org/osgi/util/tracker/ServiceTracker.cpp`).

Strings (`javolution::lang::String`, wide-char arrays) are modelled as
`List Char`; object identities (listeners, service objects) as `Nat`;
the `ServiceReferenceImpl` heap as a list indexed by creation order.
Exceptions are explicit `Err` values threaded through each operation
together with the mutated state, since C++ exceptions do not roll back
heap mutations.
-/

namespace Javolution

/-- Strings are wide-character arrays in the source; modelled as `List Char`. -/
abbrev Str := List Char

/-- `Constants_API::OBJECTCLASS = "objectClass"` (Constants.cpp). -/
def OBJECTCLASS : Str := "objectClass".toList

/-- `String_API::startsWith(prefix, offset)` (String.cpp, lines 155-163):
returns false when `prefixLength + offset > length()`, otherwise compares
the `prefixLength` characters starting at `offset`. -/
def strStartsWithAt (s p : Str) (off : Nat) : Bool :=
  if s.length < p.length + off then false
  else (s.drop off).take p.length == p

/-- Error values; every constructor models a `javolution::lang` exception
raised by the embedded code (all of them derive from `Exception`).
`nullDeref` models a member access through a null handle or null raw
pointer (`Type::Handle::operator->` raises `NullPointerException`; on a
raw pointer it is undefined behavior, likewise modelled as `nullDeref`).
`ub` models the out-of-bounds array write reached by
`FastTable_API::remove(-1)`. -/
inductive Err where
  | exception (msg : Str)
  | unsupportedOperation
  | indexOutOfBounds
  | nullDeref
  | runtimeExc (msg : Str)
  | activatorErr (n : Nat)
  | ub
deriving DecidableEq, Repr

/-- `String_API::substring(beginIndex, endIndex)` (String.cpp, lines 134-145)
with its three bound checks; on success copies characters
`beginIndex .. endIndex-1`. -/
def substringImpl (s : Str) (b e : Int) : Except Err Str :=
  if b < 0 then .error .indexOutOfBounds
  else if e > (s.length : Int) then .error .indexOutOfBounds
  else if b > e then .error .indexOutOfBounds
  else .ok ((s.take e.toNat).drop b.toNat)

/-- The canonical filter string `"(" + OBJECTCLASS + "=" + name + ")"` as
built by `OSGiImpl_API::fireServiceEvent` (OSGiImpl.cpp, lines 50-52) and by
the `ServiceTracker_API` constructor. -/
def canonicalFilter (serviceName : Str) : Str :=
  '(' :: OBJECTCLASS ++ '=' :: serviceName ++ [')']

/-- `ServiceReferenceImpl_API` (ServiceReferenceImpl.hpp): owning bundle
(`none` once cleared at unregistration), interface name, and the opaque
service object (modelled by its identity). -/
structure SRefObj where
  bundle : Option Nat
  serviceName : Str
  service : Nat
deriving DecidableEq, Repr

/-- `FilterImpl_API` fields `_filterString` and `_className`
(FilterImpl.hpp). -/
structure FilterImpl where
  filterString : Str
  className : Str
deriving DecidableEq, Repr

/-- The `FilterImpl_API` constructor (FilterImpl.hpp, lines 42-49):
checks `filterString->startsWith(OBJECTCLASS, 1)` (else
`UnsupportedOperationException`), then extracts
`substring(OBJECTCLASS.length()+2, filterString.length()-1)`. -/
def FilterImpl.compile (filterString : Str) : Except Err FilterImpl :=
  if ¬ strStartsWithAt filterString OBJECTCLASS 1 then .error .unsupportedOperation
  else
    match substringImpl filterString ((OBJECTCLASS.length : Int) + 2)
        ((filterString.length : Int) - 1) with
    | .error e => .error e
    | .ok cn => .ok ⟨filterString, cn⟩

/-- `FilterImpl_API::match` (FilterImpl.hpp, lines 51-54):
`sri->_serviceName->equals(_className)`. -/
def FilterImpl.matchRef (f : FilterImpl) (sr : SRefObj) : Bool :=
  sr.serviceName == f.className

/-! ### Bundle states and service event kinds (Bundle.hpp, ServiceEvent.hpp) -/

def BState.UNINSTALLED : Nat := 1
def BState.INSTALLED : Nat := 2
def BState.RESOLVED : Nat := 4
def BState.STARTING : Nat := 8
def BState.STOPPING : Nat := 16
def BState.ACTIVE : Nat := 32

def SE.REGISTERED : Nat := 1
def SE.MODIFIED : Nat := 2
def SE.UNREGISTERING : Nat := 4

/-- `ServiceEvent_API`: event kind plus the affected service reference
(identified by its heap id). -/
structure SEvent where
  type : Nat
  ref : Nat
deriving DecidableEq, Repr

/-- Listener identity (`ServiceListener` handles compare by object
identity in `FastTable_API::indexOf`). -/
abbrev Listener := Nat

/-- `BundleContextImpl_API`: bound to (registry, bundle); carries a fresh
allocation id so distinct `new BundleContextImpl_API(...)` objects are
distinguishable. -/
structure Ctx where
  id : Nat
  bundle : Nat
deriving DecidableEq, Repr

/-- Deep embedding of the calls an activator's start/stop hook may make
through its `BundleContext` (BundleContextImpl.hpp). -/
inductive CtxAction where
  | registerService (serviceName : Str) (service : Nat)
  | addServiceListener (l : Listener) (f : Str)
  | removeServiceListener (l : Listener)
deriving DecidableEq, Repr

/-- A `BundleActivator`: its identity, the context calls its start hook
makes, whether the start hook then raises, and the same for its stop
hook. -/
structure Activator where
  id : Nat
  startActions : List CtxAction
  startOutcome : Option Err
  stopActions : List CtxAction
  stopOutcome : Option Err
deriving DecidableEq, Repr

/-- `BundleImpl_API` fields (BundleImpl.hpp, lines 43-50). Service
references are held by heap id. -/
structure BundleObj where
  symbolicName : Str
  activator : Activator
  state : Nat
  serviceReferences : List Nat
  serviceListeners : List Listener
  serviceListenerFilters : List Str
  context : Option Ctx
deriving DecidableEq, Repr

/-- `OSGiImpl_API`: the bundle sequence `_bundles`, plus the heap of
`ServiceReferenceImpl` objects (shared mutable objects in the source) and
a counter for fresh `BundleContextImpl` identities. -/
structure OSGiState where
  bundles : List BundleObj
  srefHeap : List SRefObj
  nextCtxId : Nat
deriving DecidableEq, Repr

/-- One synchronous event delivery: `listener->serviceChanged(event)`
performed for the listener at index `listenerIdx` of the bundle at index
`bundleIdx` (OSGiImpl.cpp, lines 53-61). -/
structure Delivery where
  bundleIdx : Nat
  listenerIdx : Nat
  listener : Listener
  event : SEvent
deriving DecidableEq, Repr

/-- `BundleImpl_API::BundleImpl_API` (BundleImpl.hpp, lines 52-60). -/
def freshBundle (symbolicName : Str) (activator : Activator) : BundleObj :=
  ⟨symbolicName, activator, BState.RESOLVED, [], [], [], none⟩

/-- Replace the bundle at index `i` by `f` of it (mutation of a
`BundleImpl` object reached through the registry). -/
def updateBundle (st : OSGiState) (i : Nat) (f : BundleObj → BundleObj) : OSGiState :=
  match st.bundles[i]? with
  | some b => { st with bundles := st.bundles.set i (f b) }
  | none => st

/-- Inner loop of `OSGiImpl_API::fireServiceEvent` (OSGiImpl.cpp, lines
55-60): for each index `j` of `_serviceListenerFilters`, when the stored
filter string equals `f`, fetch `_serviceListeners->get(j)` (which raises
`IndexOutOfBoundsException` when `j` is past the listener count) and
deliver. Returns the deliveries made before any raise. -/
def scanFilters (bIdx : Nat) (listeners : List Listener) (f : Str) (ev : SEvent) :
    Nat → List Str → List Delivery × Option Err
  | _, [] => ([], none)
  | j, fj :: rest =>
    if fj = f then
      match listeners[j]? with
      | none => ([], some .indexOutOfBounds)
      | some l =>
        let r := scanFilters bIdx listeners f ev (j+1) rest
        (⟨bIdx, j, l, ev⟩ :: r.1, r.2)
    else scanFilters bIdx listeners f ev (j+1) rest

/-- Outer loop of `OSGiImpl_API::fireServiceEvent` (OSGiImpl.cpp, lines
53-61): every bundle in registry order. -/
def fireBundles (f : Str) (ev : SEvent) : Nat → List BundleObj → List Delivery × Option Err
  | _, [] => ([], none)
  | i, b :: rest =>
    let r := scanFilters i b.serviceListeners f ev 0 b.serviceListenerFilters
    match r.2 with
    | some e => (r.1, some e)
    | none =>
      let r2 := fireBundles f ev (i+1) rest
      (r.1 ++ r2.1, r2.2)

/-- `OSGiImpl_API::fireServiceEvent` (OSGiImpl.cpp, lines 47-62): build
the canonical filter string from the event's reference, then deliver to
every listener whose stored filter string equals it. -/
def fireServiceEvent (st : OSGiState) (ev : SEvent) : List Delivery × Option Err :=
  match st.srefHeap[ev.ref]? with
  | none => ([], some .nullDeref)
  | some sr => fireBundles (canonicalFilter sr.serviceName) ev 0 st.bundles

/-- `BundleContextImpl_API::registerService` (BundleContextImpl.hpp,
lines 68-75): create the reference, append it to the owning bundle's
sequence, fire a REGISTERED event. The fresh reference's heap id is the
current heap length. -/
def registerService (st : OSGiState) (bIdx : Nat) (name : Str) (svc : Nat) :
    OSGiState × List Delivery × Option Err :=
  match st.bundles[bIdx]? with
  | none => (st, [], some .nullDeref)
  | some b =>
    let refId := st.srefHeap.length
    let st1 : OSGiState :=
      { st with
        srefHeap := st.srefHeap ++ [⟨some bIdx, name, svc⟩],
        bundles := st.bundles.set bIdx
          ({ b with serviceReferences := b.serviceReferences ++ [refId] }) }
    let r := fireServiceEvent st1 ⟨SE.REGISTERED, refId⟩
    (st1, r.1, r.2)

/-- `BundleContextImpl_API::addServiceListener` / `removeServiceListener`
(BundleContextImpl.hpp, lines 57-66) and `registerService`, dispatched on
the action. `removeServiceListener` computes
`indexOf(listener)`; when the listener is absent `indexOf` yields `-1`
and `FastTable_API::remove(-1)` reads and writes out of bounds (`ub`). -/
def runCtxAction (st : OSGiState) (bIdx : Nat) :
    CtxAction → OSGiState × List Delivery × Option Err
  | .registerService n s => registerService st bIdx n s
  | .addServiceListener l f =>
    match st.bundles[bIdx]? with
    | none => (st, [], some .nullDeref)
    | some b =>
      ({ st with bundles := st.bundles.set bIdx
                     ({ b with serviceListeners := b.serviceListeners ++ [l],
                               serviceListenerFilters := b.serviceListenerFilters ++ [f] }) },
       [], none)
  | .removeServiceListener l =>
    match st.bundles[bIdx]? with
    | none => (st, [], some .nullDeref)
    | some b =>
      match b.serviceListeners.findIdx? (fun x => x = l) with
      | none => (st, [], some .ub)
      | some j =>
        if j < b.serviceListenerFilters.length then
          ({ st with bundles := st.bundles.set bIdx
                         ({ b with serviceListeners := b.serviceListeners.eraseIdx j,
                                   serviceListenerFilters := b.serviceListenerFilters.eraseIdx j }) },
           [], none)
        else (st, [], some .indexOutOfBounds)

/-- Run a hook's context calls in order, stopping at the first raise but
keeping the state and deliveries produced up to it. -/
def runActions (bIdx : Nat) : OSGiState → List CtxAction →
    OSGiState × List Delivery × Option Err
  | st, [] => (st, [], none)
  | st, a :: rest =>
    let r := runCtxAction st bIdx a
    match r.2.2 with
    | some e => (r.1, r.2.1, some e)
    | none =>
      let r2 := runActions bIdx r.1 rest
      (r2.1, r.2.1 ++ r2.2.1, r2.2.2)

/-- `_activator->start(_context)` (BundleImpl.hpp, line 79): the hook's
context calls act on the bundle the context is bound to; with a null
context any context call raises a null dereference; after its calls the
hook raises its declared outcome, if any. -/
def runStartHook (st : OSGiState) (bIdx : Nat) : OSGiState × List Delivery × Option Err :=
  match st.bundles[bIdx]? with
  | none => (st, [], some .nullDeref)
  | some b =>
    match b.context with
    | none =>
      if b.activator.startActions = [] then (st, [], b.activator.startOutcome)
      else (st, [], some .nullDeref)
    | some ctx =>
      let r := runActions ctx.bundle st b.activator.startActions
      match r.2.2 with
      | some e => (r.1, r.2.1, some e)
      | none => (r.1, r.2.1, b.activator.startOutcome)

/-- `_activator->stop(_context)` (BundleImpl.hpp, line 121), analogous to
`runStartHook`. -/
def runStopHook (st : OSGiState) (bIdx : Nat) : OSGiState × List Delivery × Option Err :=
  match st.bundles[bIdx]? with
  | none => (st, [], some .nullDeref)
  | some b =>
    match b.context with
    | none =>
      if b.activator.stopActions = [] then (st, [], b.activator.stopOutcome)
      else (st, [], some .nullDeref)
    | some ctx =>
      let r := runActions ctx.bundle st b.activator.stopActions
      match r.2.2 with
      | some e => (r.1, r.2.1, some e)
      | none => (r.1, r.2.1, b.activator.stopOutcome)

/-- Message of the illegal-state exception in `BundleImpl_API::start`
(BundleImpl.hpp, line 76). -/
def notResolvedMsg (name : Str) : Str :=
  "Bundle ".toList ++ name ++ " not in a resolved state".toList

/-- Message of the wrapped error re-raised by `BundleImpl_API::start`
(BundleImpl.hpp, line 97). -/
def cannotStartMsg (name : Str) : Str :=
  "Cannot start bundle ".toList ++ name

/-- Message of the missing-bundle exception in `OSGiImpl_API::stop`
(OSGiImpl.cpp, line 39). -/
def cannotFindMsg (name : Str) : Str :=
  "Cannot find bundle ".toList ++ name

/-- Loop body of `BundleImpl_API::unregisterServices` (BundleImpl.hpp,
lines 143-149): for each owned reference in order, fire an UNREGISTERING
event to listeners of every bundle, then clear the reference's bundle
back-reference. -/
def unregLoop : OSGiState → List Nat → OSGiState × List Delivery × Option Err
  | st, [] => (st, [], none)
  | st, r :: rest =>
    let f := fireServiceEvent st ⟨SE.UNREGISTERING, r⟩
    match f.2 with
    | some e => (st, f.1, some e)
    | none =>
      match st.srefHeap[r]? with
      | none => (st, f.1, some .nullDeref)
      | some sr =>
        let st1 : OSGiState := { st with srefHeap := st.srefHeap.set r { sr with bundle := none } }
        let r2 := unregLoop st1 rest
        (r2.1, f.1 ++ r2.2.1, r2.2.2)

/-- `BundleImpl_API::unregisterServices` (BundleImpl.hpp, lines 142-151):
the loop above followed by `_serviceReferences->clear()`. -/
def unregisterServices (st : OSGiState) (bIdx : Nat) : OSGiState × List Delivery × Option Err :=
  match st.bundles[bIdx]? with
  | none => (st, [], some .nullDeref)
  | some b =>
    let r := unregLoop st b.serviceReferences
    match r.2.2 with
    | some e => (r.1, r.2.1, some e)
    | none => (updateBundle r.1 bIdx (fun b2 => { b2 with serviceReferences := [] }), r.2.1, none)

/-- `BundleImpl_API::unregisterListeners` (BundleImpl.hpp, lines 154-157):
clear both parallel sequences. -/
def unregisterListenersSt (st : OSGiState) (bIdx : Nat) : OSGiState :=
  updateBundle st bIdx (fun b =>
    { b with serviceListeners := [], serviceListenerFilters := [] })

/-- `BundleImpl_API::start` (BundleImpl.hpp, lines 74-99): require state
RESOLVED, set STARTING, run the activator's start hook; on success set
ACTIVE; on a raise set STOPPING, unregister services, clear listeners,
set RESOLVED, clear the context and re-raise a wrapped error. -/
def bundleStart (st : OSGiState) (bIdx : Nat) : OSGiState × List Delivery × Option Err :=
  match st.bundles[bIdx]? with
  | none => (st, [], some .nullDeref)
  | some b =>
    if b.state ≠ BState.RESOLVED then
      (st, [], some (.exception (notResolvedMsg b.symbolicName)))
    else
      let st1 := updateBundle st bIdx (fun b2 => { b2 with state := BState.STARTING })
      let r := runStartHook st1 bIdx
      match r.2.2 with
      | none => (updateBundle r.1 bIdx (fun b2 => { b2 with state := BState.ACTIVE }), r.2.1, none)
      | some _ =>
        let st3 := updateBundle r.1 bIdx (fun b2 => { b2 with state := BState.STOPPING })
        let u := unregisterServices st3 bIdx
        match u.2.2 with
        | some e2 => (u.1, r.2.1 ++ u.2.1, some e2)
        | none =>
          let st5 := unregisterListenersSt u.1 bIdx
          let st6 := updateBundle st5 bIdx (fun b2 =>
            { b2 with state := BState.RESOLVED, context := none })
          (st6, r.2.1 ++ u.2.1, some (.exception (cannotStartMsg b.symbolicName)))

/-- `BundleImpl_API::stop` (BundleImpl.hpp, lines 101-129): no-op unless
ACTIVE; else STOPPING, run the stop hook capturing any raise, always
unregister services and listeners, set RESOLVED, then rethrow the
captured error. -/
def bundleStop (st : OSGiState) (bIdx : Nat) : OSGiState × List Delivery × Option Err :=
  match st.bundles[bIdx]? with
  | none => (st, [], some .nullDeref)
  | some b =>
    if b.state ≠ BState.ACTIVE then (st, [], none)
    else
      let st1 := updateBundle st bIdx (fun b2 => { b2 with state := BState.STOPPING })
      let r := runStopHook st1 bIdx
      let u := unregisterServices r.1 bIdx
      match u.2.2 with
      | some e2 => (u.1, r.2.1 ++ u.2.1, some e2)
      | none =>
        let st4 := unregisterListenersSt u.1 bIdx
        let st5 := updateBundle st4 bIdx (fun b2 => { b2 with state := BState.RESOLVED })
        (st5, r.2.1 ++ u.2.1, r.2.2)

/-- `OSGiImpl_API::getBundle` (OSGiImpl.cpp, lines 64-71): index of the
first bundle whose symbolic name equals the argument. -/
def getBundleIdx (st : OSGiState) (name : Str) : Option Nat :=
  st.bundles.findIdx? (fun b => b.symbolicName == name)

/-- Body of the `try` block of `OSGiImpl_API::start` (OSGiImpl.cpp, lines
23-30): look up or create the bundle, give it a freshly constructed
context, invoke its `start()`. -/
def osgiStartBody (st : OSGiState) (name : Str) (act : Activator) :
    OSGiState × List Delivery × Option Err :=
  let p : OSGiState × Nat :=
    match getBundleIdx st name with
    | some i => (st, i)
    | none => ({ st with bundles := st.bundles ++ [freshBundle name act] }, st.bundles.length)
  let st2 := updateBundle p.1 p.2 (fun b => { b with context := some ⟨p.1.nextCtxId, p.2⟩ })
  let st3 : OSGiState := { st2 with nextCtxId := st2.nextCtxId + 1 }
  bundleStart st3 p.2

/-- An entry of the observable trace: an event delivery or a logged
error (`Logging_API::error`). -/
inductive TraceEntry where
  | deliver (d : Delivery)
  | log (e : Err)
deriving DecidableEq, Repr

/-- `OSGiImpl_API::start` (OSGiImpl.cpp, lines 22-34): the body above
inside `try { ... } catch (Throwable) { log }`. -/
def osgiStart (st : OSGiState) (name : Str) (act : Activator) : OSGiState × List TraceEntry :=
  let r := osgiStartBody st name act
  match r.2.2 with
  | none => (r.1, r.2.1.map TraceEntry.deliver)
  | some e => (r.1, r.2.1.map TraceEntry.deliver ++ [TraceEntry.log e])

/-- Body of the `try` block of `OSGiImpl_API::stop` (OSGiImpl.cpp, lines
37-41): look up the bundle (raising when absent), invoke its `stop()`,
then clear its context. -/
def osgiStopBody (st : OSGiState) (name : Str) : OSGiState × List Delivery × Option Err :=
  match getBundleIdx st name with
  | none => (st, [], some (.exception (cannotFindMsg name)))
  | some i =>
    let r := bundleStop st i
    match r.2.2 with
    | some e => (r.1, r.2.1, some e)
    | none => (updateBundle r.1 i (fun b => { b with context := none }), r.2.1, none)

/-- `OSGiImpl_API::stop` (OSGiImpl.cpp, lines 36-45): the body above
inside `try { ... } catch (Throwable) { log }`. -/
def osgiStop (st : OSGiState) (name : Str) : OSGiState × List TraceEntry :=
  let r := osgiStopBody st name
  match r.2.2 with
  | none => (r.1, r.2.1.map TraceEntry.deliver)
  | some e => (r.1, r.2.1.map TraceEntry.deliver ++ [TraceEntry.log e])

/-- `ServiceRegistrationImpl_API::unregister` (ServiceRegistrationImpl.hpp,
lines 50-56): fire an UNREGISTERING event through the owning bundle's
registry, remove the reference from that bundle's sequence, clear the
reference's bundle back-reference. When the back-reference is already
null (a previous `unregister`), the member access through the null
cast result faults before any event is fired. -/
def srUnregister (st : OSGiState) (refId : Nat) : OSGiState × List Delivery × Option Err :=
  match st.srefHeap[refId]? with
  | none => (st, [], some .nullDeref)
  | some sr =>
    match sr.bundle with
    | none => (st, [], some .nullDeref)
    | some bIdx =>
      let f := fireServiceEvent st ⟨SE.UNREGISTERING, refId⟩
      match f.2 with
      | some e => (st, f.1, some e)
      | none =>
        let st1 := updateBundle st bIdx (fun b =>
          { b with serviceReferences := b.serviceReferences.erase refId })
        let st2 : OSGiState := { st1 with srefHeap := st1.srefHeap.set refId { sr with bundle := none } }
        (st2, f.1, none)

/-! ### Service Tracker (ServiceTracker.cpp) -/

/-- `FastMap_API::get`: the mapped value, `Null` when the key is absent
(values may themselves be `Null`, hence `Option Nat` values). -/
def mapGet (m : List (Nat × Option Nat)) (k : Nat) : Option Nat :=
  match m.lookup k with
  | some v => v
  | none => none

/-- `FastMap_API::put`: replace the value when the key exists, else add
the entry. -/
def mapPut (m : List (Nat × Option Nat)) (k : Nat) (v : Option Nat) :
    List (Nat × Option Nat) :=
  if (m.lookup k).isSome then m.map (fun p => if p.1 = k then (k, v) else p)
  else m ++ [(k, v)]

/-- `FastMap_API::remove`: delete the entry for the key. -/
def mapRemove (m : List (Nat × Option Nat)) (k : Nat) : List (Nat × Option Nat) :=
  m.filter (fun p => p.1 ≠ k)

/-- The mutable fields of `ServiceTracker_API` touched by its listener:
`_trackedServices`, `_cachedService`, `_trackingCount`. -/
structure TrackerState where
  tracked : List (Nat × Option Nat)
  cached : Option Nat
  trackingCount : Int
deriving DecidableEq, Repr

/-- One observable step of
`ServiceTracker_API::ServiceListenerImpl::serviceChanged`, in program
order: customizer invocations (with the argument values they receive)
and the tracker's own mutations. -/
inductive TEvtOp where
  | custAdding (ref : Nat) (result : Option Nat)
  | custModified (ref : Nat) (svc : Option Nat)
  | custRemoved (ref : Nat) (svc : Option Nat)
  | mapInsert (ref : Nat) (svc : Option Nat)
  | mapDelete (ref : Nat)
  | cacheWrite (v : Option Nat)
  | counterBump
deriving DecidableEq, Repr

/-- `ServiceTracker_API::ServiceListenerImpl::serviceChanged`
(ServiceTracker.cpp, lines 32-67). The customizer's `addingService` is a
caller-supplied function from the reference to the object to track. The
returned list records the statements in their source order:

* REGISTERED (lines 35-44): `addingService` first, then `put`, then
  `_cachedService = service`, then `_trackingCount++`;
* MODIFIED (lines 45-53): `_cachedService = Null`, `_trackingCount++`,
  then `modifiedService(reference, getService(reference))`;
* UNREGISTERING (lines 54-63): `remove`, `_cachedService = Null`,
  `_trackingCount++`, then `removedService(reference,
  getService(reference))` where `getService` reads the already-updated
  map;
* any other kind raises a `RuntimeException` (lines 64-65). -/
def serviceChanged (cust : Nat → Option Nat) (t : TrackerState) (ev : SEvent) :
    TrackerState × List TEvtOp × Option Err :=
  if ev.type = SE.REGISTERED then
    let service := cust ev.ref
    let t3 : TrackerState :=
      ⟨mapPut t.tracked ev.ref service, service, t.trackingCount + 1⟩
    (t3, [.custAdding ev.ref service, .mapInsert ev.ref service,
          .cacheWrite service, .counterBump], none)
  else if ev.type = SE.MODIFIED then
    let t2 : TrackerState := ⟨t.tracked, none, t.trackingCount + 1⟩
    let svc := mapGet t2.tracked ev.ref
    (t2, [.cacheWrite none, .counterBump, .custModified ev.ref svc], none)
  else if ev.type = SE.UNREGISTERING then
    let t3 : TrackerState :=
      ⟨mapRemove t.tracked ev.ref, none, t.trackingCount + 1⟩
    let svc := mapGet t3.tracked ev.ref
    (t3, [.mapDelete ev.ref, .cacheWrite none, .counterBump,
          .custRemoved ev.ref svc], none)
  else (t, [], some (.runtimeExc "Unknown service event".toList))

/-! ### Listener/filter parallel-sequence operations (claim C9) -/

/-- The operations that touch a bundle's listener/filter sequences:
`addServiceListener`, `removeServiceListener`
(BundleContextImpl.hpp, lines 57-66) and the lifecycle teardown
`unregisterListeners` (BundleImpl.hpp, lines 154-157). -/
inductive LOp where
  | add (l : Listener) (f : Str)
  | rem (l : Listener)
  | teardown
deriving DecidableEq, Repr

/-- Apply one listener/filter operation to the bundle at `bIdx` through
the embedded source operations. -/
def runLOp (st : OSGiState) (bIdx : Nat) : LOp → OSGiState × Option Err
  | .add l f =>
    let r := runCtxAction st bIdx (.addServiceListener l f)
    (r.1, r.2.2)
  | .rem l =>
    let r := runCtxAction st bIdx (.removeServiceListener l)
    (r.1, r.2.2)
  | .teardown => (unregisterListenersSt st bIdx, none)

/-- Apply a sequence of listener/filter operations, stopping at the
first fault. -/
def runLOps (st : OSGiState) (bIdx : Nat) : List LOp → OSGiState × Option Err
  | [] => (st, none)
  | op :: rest =>
    let r := runLOp st bIdx op
    match r.2 with
    | some e => (r.1, some e)
    | none => runLOps r.1 bIdx rest

/-- Reference semantics for claim C9: the same operations on a single
sequence of (listener, filter) pairs registered together. -/
def lStepPairs : List (Listener × Str) → LOp → Option (List (Listener × Str))
  | ps, .add l f => some (ps ++ [(l, f)])
  | ps, .rem l =>
    match ps.findIdx? (fun p => p.1 = l) with
    | none => none
    | some j => some (ps.eraseIdx j)
  | _, .teardown => some []

/-- Run the reference semantics over a sequence of operations. -/
def lRunPairs : List (Listener × Str) → List LOp → Option (List (Listener × Str))
  | ps, [] => some ps
  | ps, op :: rest =>
    match lStepPairs ps op with
    | none => none
    | some ps2 => lRunPairs ps2 rest

/-! ### Well-formedness -/

/-- Registry well-formedness: every bundle's listener and filter
sequences have equal length, and every owned service-reference id is a
valid heap id. -/
def WF (st : OSGiState) : Prop :=
  (∀ b ∈ st.bundles, b.serviceListeners.length = b.serviceListenerFilters.length) ∧
  (∀ b ∈ st.bundles, ∀ r ∈ b.serviceReferences, r < st.srefHeap.length)

/-- Context-id freshness: every context stored in a bundle was allocated
before `nextCtxId`. -/
def CtxFresh (st : OSGiState) : Prop :=
  ∀ b ∈ st.bundles, ∀ c, b.context = some c → c.id < st.nextCtxId

/-- The (symbolic name, activator) signature of the registry's bundle
sequence; `OSGiImpl_API::start` may only extend it. -/
def sig (st : OSGiState) : List (Str × Activator) :=
  st.bundles.map (fun b => (b.symbolicName, b.activator))

/-! ### Concrete states used by witnesses and counterexamples -/

/-- An activator whose hooks do nothing. -/
def exAct : Activator := ⟨0, [], none, [], none⟩

def strA : Str := "A".toList

def strX : Str := "X".toList

/-- An active bundle owning service reference 0 and holding one listener
subscribed with the canonical filter for interface `X`. -/
def exBundle : BundleObj :=
  ⟨strA, exAct, BState.ACTIVE, [0], [5], [canonicalFilter strX], some ⟨0, 0⟩⟩

/-- A registry with the single bundle above and one registered service. -/
def exState : OSGiState := ⟨[exBundle], [⟨some 0, strX, 7⟩], 1⟩

/-- The registry after `unregister()` has been called once on the
registration wrapping reference 0. -/
def exStateUnreg : OSGiState := (srUnregister exState 0).1

/-- A string accepted by `FilterImpl` compilation although it is not of
the form `(objectClass=<value>)`. -/
def badFilterStr : Str := "xobjectClassyAz".toList

/-- A tracker currently tracking reference 0 with service object 5. -/
def exTrackerRem : TrackerState := ⟨[(0, some 5)], some 5, 3⟩

/-- A freshly opened tracker with nothing tracked. -/
def exTrackerAdd : TrackerState := ⟨[], none, 0⟩

/-- An activator whose start hook registers service `X`, subscribes
listener 5, and then raises. -/
def failingAct : Activator :=
  ⟨1, [.registerService strX 7, .addServiceListener 5 (canonicalFilter strX)],
   some (.activatorErr 3), [], none⟩

/-- A RESOLVED bundle holding `failingAct`, with a context installed by
the registry. -/
def exBundleR : BundleObj := ⟨strA, failingAct, BState.RESOLVED, [], [], [], some ⟨0, 0⟩⟩

/-- A registry holding only `exBundleR`. -/
def exStateR : OSGiState := ⟨[exBundleR], [], 0⟩

/-! ## Theorems -/

theorem mapRemove_lookup (m : List (Nat × Option Nat)) (r : Nat) :
    List.lookup r (mapRemove m r) = none := by
  induction m with
  | nil => rfl
  | cons p rest ih =>
    rcases p with ⟨a, b⟩
    by_cases h : a = r
    · simpa [mapRemove, List.filter_cons, h] using ih
    · have hd : (decide ¬ (a, b).1 = r) = true := by simp [h]
      have hk : (r == a) = false := by simp [Ne.symm h]
      simp only [mapRemove, List.filter_cons, hd, if_true]
      rw [List.lookup_cons]
      simp only [hk]
      exact ih

theorem lookup_map_put (rest : List (Nat × Option Nat)) (k : Nat) (v : Option Nat) :
    (List.lookup k rest).isSome = true →
    List.lookup k (rest.map (fun p => if p.1 = k then (k, v) else p)) = some v := by
  induction rest with
  | nil => intro h; simp at h
  | cons p rest ih =>
    rcases p with ⟨a, b⟩
    intro h
    by_cases hp : a = k
    · subst hp
      simp [List.lookup_cons]
    · have hk : (k == a) = false := by simp [Ne.symm hp]
      simp only [List.map_cons, if_neg (by simpa using hp)]
      rw [List.lookup_cons] at h ⊢
      simp only [hk] at h ⊢
      exact ih h

theorem mapPut_get (m : List (Nat × Option Nat)) (k : Nat) (v : Option Nat) :
    mapGet (mapPut m k v) k = v := by
  unfold mapPut
  by_cases h : (List.lookup k m).isSome
  · simp only [h, if_true, mapGet, lookup_map_put m k v h]
  · simp only [h, if_false]
    rw [Option.not_isSome_iff_eq_none] at h
    simp [mapGet, List.lookup_append, h, List.lookup_cons]

theorem mapRemove_get (m : List (Nat × Option Nat)) (r : Nat) :
    mapGet (mapRemove m r) r = none := by
  simp [mapGet, mapRemove_lookup]

/-- C3 (amended): on an UNREGISTERING event the tracker removes the
mapping entry first, invalidates the single-entry cache, increments the
tracking counter, and only then invokes
`customizer.removedService(reference, s)` — but `s` is the result of
looking the reference up in the already-updated map, which is always
null, not the service object that was mapped before removal. -/
theorem tracker_unregistering_behavior
    (cust : Nat → Option Nat) (t : TrackerState) (r : Nat) :
    serviceChanged cust t ⟨SE.UNREGISTERING, r⟩ =
      (⟨mapRemove t.tracked r, none, t.trackingCount + 1⟩,
       [.mapDelete r, .cacheWrite none, .counterBump, .custRemoved r none], none) ∧
    mapGet (mapRemove t.tracked r) r = none := by
  refine ⟨?_, mapRemove_get _ _⟩
  simp [serviceChanged, SE.UNREGISTERING, SE.REGISTERED, SE.MODIFIED, mapRemove_get]

/-- C3 counterexample: a tracker maps reference 0 to service object 5;
on UNREGISTERING the customizer's `removedService` receives null, not
the previously-mapped object 5 as the claim states. -/
theorem tracker_unregistering_counterexample :
    serviceChanged (fun _ => none) exTrackerRem ⟨SE.UNREGISTERING, 0⟩ =
      (⟨[], none, 4⟩, [.mapDelete 0, .cacheWrite none, .counterBump, .custRemoved 0 none], none) ∧
    mapGet exTrackerRem.tracked 0 = some 5 ∧
    TEvtOp.custRemoved 0 (some 5) ∉
      (serviceChanged (fun _ => none) exTrackerRem ⟨SE.UNREGISTERING, 0⟩).2.1 := by
  decide

/-- C4 (amended): on a REGISTERED event the tracker invokes
`customizer.addingService(reference)` before inserting the returned
object into the mapping, then sets the single-entry cache to that
returned object (it does not invalidate the cache), and increments the
tracking counter; the inserted object is retrievable from the map. -/
theorem tracker_registered_behavior
    (cust : Nat → Option Nat) (t : TrackerState) (r : Nat) :
    serviceChanged cust t ⟨SE.REGISTERED, r⟩ =
      (⟨mapPut t.tracked r (cust r), cust r, t.trackingCount + 1⟩,
       [.custAdding r (cust r), .mapInsert r (cust r), .cacheWrite (cust r), .counterBump], none) ∧
    mapGet (mapPut t.tracked r (cust r)) r = cust r := by
  refine ⟨?_, mapPut_get _ _ _⟩
  simp [serviceChanged, SE.REGISTERED]

/-- C4 counterexample: on a REGISTERED event whose customizer returns
service object 7, the single-entry cache afterwards holds object 7 — it
is not invalidated (cleared to null) as the claim states. -/
theorem tracker_registered_counterexample :
    serviceChanged (fun _ => some 7) exTrackerAdd ⟨SE.REGISTERED, 0⟩ =
      (⟨[(0, some 7)], some 7, 1⟩,
       [.custAdding 0 (some 7), .mapInsert 0 (some 7), .cacheWrite (some 7), .counterBump], none) ∧
    (⟨[(0, some 7)], some 7, 1⟩ : TrackerState).cached ≠ none := by
  decide

theorem strStartsWithAt_iff (s p : Str) (off : Nat) :
    strStartsWithAt s p off = true ↔
      p.length + off ≤ s.length ∧ (s.drop off).take p.length = p := by
  unfold strStartsWithAt
  by_cases h : s.length < p.length + off
  · simp only [h, if_true]
    constructor
    · intro h2; exact absurd h2 (by decide)
    · intro h2; omega
  · simp only [h, if_false, beq_iff_eq]
    constructor
    · intro h2; exact ⟨by omega, h2⟩
    · intro h2; exact h2.2

theorem compile_eq (fs : Str) :
    FilterImpl.compile fs =
      (if 14 ≤ fs.length ∧ (fs.drop 1).take 11 = OBJECTCLASS then
        Except.ok ⟨fs, (fs.take (fs.length - 1)).drop 13⟩
      else if 12 ≤ fs.length ∧ (fs.drop 1).take 11 = OBJECTCLASS then
        Except.error Err.indexOutOfBounds
      else Except.error Err.unsupportedOperation) := by
  have hOBJ : OBJECTCLASS.length = 11 := by decide
  unfold FilterImpl.compile substringImpl
  by_cases hsw : strStartsWithAt fs OBJECTCLASS 1 = true
  · have hc := (strStartsWithAt_iff fs OBJECTCLASS 1).mp hsw
    rw [hOBJ] at hc
    simp only [hsw, not_true, if_false]
    by_cases h14 : 14 ≤ fs.length
    · have hb : ¬ ((OBJECTCLASS.length : Int) + 2 < 0) := by rw [hOBJ]; omega
      have hc2 : ¬ ((fs.length : Int) - 1 > (fs.length : Int)) := by omega
      have h3 : ¬ ((OBJECTCLASS.length : Int) + 2 > (fs.length : Int) - 1) := by
        rw [hOBJ]; omega
      simp only [hb, hc2, h3, if_false]
      have ht1 : ((OBJECTCLASS.length : Int) + 2).toNat = 13 := by rw [hOBJ]; decide
      have ht2 : ((fs.length : Int) - 1).toNat = fs.length - 1 := by omega
      rw [ht1, ht2]
      rw [if_pos ⟨h14, hc.2⟩]
    · have hb : ¬ ((OBJECTCLASS.length : Int) + 2 < 0) := by rw [hOBJ]; omega
      have hc2 : ¬ ((fs.length : Int) - 1 > (fs.length : Int)) := by omega
      have h3 : ((OBJECTCLASS.length : Int) + 2 > (fs.length : Int) - 1) := by
        rw [hOBJ]; omega
      simp only [hb, hc2, h3, if_false, if_true]
      rw [if_neg (fun hx => h14 hx.1), if_pos ⟨by omega, hc.2⟩]
  · have hswf : strStartsWithAt fs OBJECTCLASS 1 = false := by
      cases hx : strStartsWithAt fs OBJECTCLASS 1
      · rfl
      · exact absurd hx hsw
    have hA : ¬ (14 ≤ fs.length ∧ (fs.drop 1).take 11 = OBJECTCLASS) := by
      intro hx
      exact hsw ((strStartsWithAt_iff fs OBJECTCLASS 1).mpr (by rw [hOBJ]; exact ⟨by omega, hx.2⟩))
    have hB : ¬ (12 ≤ fs.length ∧ (fs.drop 1).take 11 = OBJECTCLASS) := by
      intro hx
      exact hsw ((strStartsWithAt_iff fs OBJECTCLASS 1).mpr (by rw [hOBJ]; exact ⟨by omega, hx.2⟩))
    rw [if_neg hA, if_neg hB, hswf]
    simp

theorem compile_canonicalFilter (v : Str) :
    FilterImpl.compile (canonicalFilter v) = Except.ok ⟨canonicalFilter v, v⟩ := by
  have hpre : ('(' :: OBJECTCLASS ++ ['=']).length = 13 := by decide
  have hd : canonicalFilter v = (('(' :: OBJECTCLASS ++ ['=']) ++ v) ++ [')'] := by
    simp [canonicalFilter]
  have hlen : (canonicalFilter v).length = 14 + v.length := by
    rw [hd]
    simp only [List.length_append, hpre, List.length_cons, List.length_nil]
    omega
  have hdrop : ((canonicalFilter v).drop 1).take 11 = OBJECTCLASS := by
    show (OBJECTCLASS ++ '=' :: v ++ [')']).take 11 = OBJECTCLASS
    have h11 : OBJECTCLASS.length = 11 := by decide
    exact List.take_left' h11
  rw [compile_eq, if_pos ⟨by omega, hdrop⟩]
  have h1 : (canonicalFilter v).length - 1 = (('(' :: OBJECTCLASS ++ ['=']) ++ v).length := by
    rw [hlen]
    simp only [List.length_append, hpre]
    omega
  rw [hd] at h1 ⊢
  rw [h1, List.take_left, List.drop_left' hpre]

/-- C5 (amended): filter compilation accepts a string iff it has length
at least 14 and its characters at positions 1..11 spell `objectClass`
(the leading character, the character after `objectClass`, and the final
character are not checked); on success the stored class name is the
substring from position 13 up to (excluding) the last character, which
for a well-formed `(objectClass=<value>)` string is exactly `<value>`;
and `match` returns true iff the reference's interface name equals that
class name by exact string comparison. -/
theorem filter_compile_match_charact (fs : Str) :
    ((FilterImpl.compile fs).isOk = true ↔
      14 ≤ fs.length ∧ (fs.drop 1).take 11 = OBJECTCLASS) ∧
    FilterImpl.compile (canonicalFilter fs) = Except.ok ⟨canonicalFilter fs, fs⟩ ∧
    (∀ f, FilterImpl.compile fs = Except.ok f →
      f.filterString = fs ∧ f.className = (fs.take (fs.length - 1)).drop 13 ∧
      ∀ sr : SRefObj, (f.matchRef sr = true ↔ sr.serviceName = f.className)) := by
  refine ⟨?_, compile_canonicalFilter fs, ?_⟩
  · rw [compile_eq]
    by_cases h1 : 14 ≤ fs.length ∧ (fs.drop 1).take 11 = OBJECTCLASS
    · rw [if_pos h1]
      exact ⟨fun _ => h1, fun _ => rfl⟩
    · rw [if_neg h1]
      by_cases h2 : 12 ≤ fs.length ∧ (fs.drop 1).take 11 = OBJECTCLASS
      · rw [if_pos h2]
        exact ⟨fun hx => absurd hx (by decide), fun hx => absurd hx h1⟩
      · rw [if_neg h2]
        exact ⟨fun hx => absurd hx (by decide), fun hx => absurd hx h1⟩
  · intro f hf
    rw [compile_eq] at hf
    by_cases h1 : 14 ≤ fs.length ∧ (fs.drop 1).take 11 = OBJECTCLASS
    · rw [if_pos h1] at hf
      cases hf
      refine ⟨rfl, rfl, ?_⟩
      intro sr
      simp [FilterImpl.matchRef]
    · rw [if_neg h1] at hf
      by_cases h2 : 12 ≤ fs.length ∧ (fs.drop 1).take 11 = OBJECTCLASS
      · rw [if_pos h2] at hf
        cases hf
      · rw [if_neg h2] at hf
        cases hf

/-- C5 counterexample: `"xobjectClassyAz"` is not of the form
`(objectClass=<value>)` for any value, yet compilation accepts it
(extracting class name `"A"`) instead of failing with a syntax error as
the claim states. -/
theorem filter_compile_counterexample :
    (FilterImpl.compile badFilterStr).isOk = true ∧
    FilterImpl.compile badFilterStr = Except.ok ⟨badFilterStr, strA⟩ ∧
    ∀ v : Str, badFilterStr ≠ canonicalFilter v := by
  refine ⟨by rfl, by rfl, ?_⟩
  intro v h
  have h0 : badFilterStr.head? = (canonicalFilter v).head? := by rw [h]
  have h1 : some 'x' = some '(' := h0
  exact absurd (Option.some.inj h1) (by decide)

/-- Witness for C5: instantiates the characterization at the concrete
filter string `(objectClass=A)` and evaluates `match` on a concrete
reference. -/
theorem filter_compile_match_charact_witness :
    FilterImpl.matchRef ⟨canonicalFilter strA, strA⟩ ⟨some 0, strA, 7⟩ = true := by
  have h2 := (filter_compile_match_charact strA).2.1
  have h3 := (filter_compile_match_charact (canonicalFilter strA)).2.2
    ⟨canonicalFilter strA, strA⟩ h2
  exact (h3.2.2 ⟨some 0, strA, 7⟩).mpr rfl

/-- Updating a bundle leaves the reference heap unchanged. -/
theorem updateBundle_srefHeap (st : OSGiState) (i : Nat) (f : BundleObj → BundleObj) :
    (updateBundle st i f).srefHeap = st.srefHeap := by
  unfold updateBundle
  cases st.bundles[i]? <;> rfl

/-- C8 (amended): after any successful `unregister()`, the wrapped
reference's bundle back-reference is null, and a second `unregister()`
call does not re-fire an UNREGISTERING event nor re-attempt a removal:
it faults with a null dereference on the cleared back-reference before
any delivery, leaving the state unchanged. -/
theorem sr_unregister_not_idempotent (st : OSGiState) (refId : Nat)
    (st2 : OSGiState) (ds : List Delivery)
    (h : srUnregister st refId = (st2, ds, none)) :
    (∃ sr, st2.srefHeap[refId]? = some sr ∧ sr.bundle = none) ∧
    srUnregister st2 refId = (st2, [], some Err.nullDeref) := by
  cases hg : st.srefHeap[refId]? with
  | none =>
    simp only [srUnregister, hg] at h
    simp at h
  | some sr =>
    cases hb : sr.bundle with
    | none =>
      simp only [srUnregister, hg, hb] at h
      simp at h
    | some bIdx =>
      cases hf : (fireServiceEvent st ⟨SE.UNREGISTERING, refId⟩).2 with
      | some e =>
        simp only [srUnregister, hg, hb, hf] at h
        simp at h
      | none =>
        simp only [srUnregister, hg, hb, hf] at h
        simp only [Prod.mk.injEq] at h
        obtain ⟨hst2, _, _⟩ := h
        have hlt : refId < st.srefHeap.length :=
          (List.getElem?_eq_some.mp hg).1
        have hheap : st2.srefHeap[refId]? = some { sr with bundle := none } := by
          rw [← hst2]
          simp only [updateBundle_srefHeap]
          exact List.getElem?_set_self (by simpa [updateBundle_srefHeap] using hlt)
        refine ⟨⟨{ sr with bundle := none }, hheap, rfl⟩, ?_⟩
        simp only [srUnregister, hheap]

/-- C8 counterexample: on the concrete registry `exState`, the first
`unregister()` fires an UNREGISTERING delivery to the subscribed
listener, but the second call delivers nothing and raises a null
dereference instead of re-firing the event and re-attempting removal as
the claim states. -/
theorem sr_unregister_second_call_counterexample :
    (srUnregister exState 0).2 = ([⟨0, 0, 5, ⟨SE.UNREGISTERING, 0⟩⟩], none) ∧
    srUnregister exStateUnreg 0 = (exStateUnreg, [], some Err.nullDeref) := by
  exact ⟨rfl, rfl⟩

/-- Witness for C8: the amended theorem applied to the concrete registry
`exState` and reference 0. -/
theorem sr_unregister_not_idempotent_witness :
    (∃ sr, exStateUnreg.srefHeap[0]? = some sr ∧ sr.bundle = none) ∧
    srUnregister exStateUnreg 0 = (exStateUnreg, [], some Err.nullDeref) :=
  sr_unregister_not_idempotent exState 0 exStateUnreg
    [⟨0, 0, 5, ⟨SE.UNREGISTERING, 0⟩⟩] (by rfl)

/-- The canonical filter string determines the interface name. -/
theorem canonicalFilter_inj (a b : Str) (h : canonicalFilter a = canonicalFilter b) :
    a = b := by
  unfold canonicalFilter at h
  have h1 := List.cons.inj h
  have h2 := h1.2
  simp only [List.append_eq] at h2
  rw [List.append_assoc, List.append_assoc] at h2
  have h3 := List.append_cancel_left h2
  rw [List.cons_append, List.cons_append] at h3
  have h4 := List.cons.inj h3
  exact List.append_cancel_right h4.2

/-- The inner listener scan delivers exactly at the indices whose stored
filter string equals the canonical string, in registration order. -/
theorem scanFilters_eq (bIdx : Nat) (listeners : List Listener) (f : Str) (ev : SEvent) :
    ∀ (fs : List Str) (j : Nat), fs.length + j ≤ listeners.length →
    scanFilters bIdx listeners f ev j fs =
      ((List.enumFrom j fs).filterMap (fun q =>
        if q.2 = f then (listeners[q.1]?).map (fun l => ⟨bIdx, q.1, l, ev⟩) else none),
       none) := by
  intro fs
  induction fs with
  | nil => intro j _; simp [scanFilters]
  | cons fj rest ih =>
    intro j hlen
    have hj : j < listeners.length := by
      simp only [List.length_cons] at hlen
      omega
    have hget : listeners[j]? = some (listeners[j]) := List.getElem?_eq_getElem hj
    have hrest := ih (j+1) (by simp only [List.length_cons] at hlen; omega)
    rw [List.enumFrom_cons]
    by_cases hf : fj = f
    · simp only [scanFilters, hf, if_true, hget]
      rw [hrest]
      simp [List.filterMap_cons, hget]
    · simp only [scanFilters, hf, if_false]
      rw [hrest]
      simp [List.filterMap_cons, hf]

/-- The outer loop concatenates the per-bundle deliveries in registry
order. -/
theorem fireBundles_eq (f : Str) (ev : SEvent) :
    ∀ (bs : List BundleObj) (i : Nat),
    (∀ b ∈ bs, b.serviceListeners.length = b.serviceListenerFilters.length) →
    fireBundles f ev i bs =
      ((List.enumFrom i bs).flatMap (fun p =>
        (List.enumFrom 0 p.2.serviceListenerFilters).filterMap (fun q =>
          if q.2 = f then (p.2.serviceListeners[q.1]?).map (fun l => ⟨p.1, q.1, l, ev⟩)
          else none)), none) := by
  intro bs
  induction bs with
  | nil => intro i _; simp [fireBundles]
  | cons b rest ih =>
    intro i hwf
    have hb := hwf b (by simp)
    have hscan := scanFilters_eq i b.serviceListeners f ev b.serviceListenerFilters 0
      (by omega)
    simp only [fireBundles]
    rw [hscan, ih (i+1) (fun b2 hb2 => hwf b2 (by simp [hb2]))]
    simp [List.enumFrom_cons]

/-- C2: `fireServiceEvent` delivers exactly to the (bundle, listener)
pairs whose stored filter string equals the canonical string
`(objectClass=<interfaceName>)` of the event's reference, visiting
bundles in registry order and each bundle's listener slots in
registration order; every delivery's stored filter is that canonical
string, and a listener slot whose stored filter is `(objectClass=A)`
with `A` different from the event's interface name receives nothing. -/
theorem fire_service_event_exact (st : OSGiState) (ev : SEvent) (sr : SRefObj)
    (href : st.srefHeap[ev.ref]? = some sr)
    (hwf : ∀ b ∈ st.bundles, b.serviceListeners.length = b.serviceListenerFilters.length) :
    fireServiceEvent st ev =
      ((List.enumFrom 0 st.bundles).flatMap (fun p =>
        (List.enumFrom 0 p.2.serviceListenerFilters).filterMap (fun q =>
          if q.2 = canonicalFilter sr.serviceName then
            (p.2.serviceListeners[q.1]?).map (fun l => ⟨p.1, q.1, l, ev⟩)
          else none)), none) ∧
    (∀ d ∈ (fireServiceEvent st ev).1,
      ∃ b, st.bundles[d.bundleIdx]? = some b ∧
        b.serviceListenerFilters[d.listenerIdx]? = some (canonicalFilter sr.serviceName) ∧
        b.serviceListeners[d.listenerIdx]? = some d.listener ∧ d.event = ev) ∧
    (∀ A : Str, A ≠ sr.serviceName →
      ∀ d ∈ (fireServiceEvent st ev).1, ∀ b, st.bundles[d.bundleIdx]? = some b →
        b.serviceListenerFilters[d.listenerIdx]? ≠ some (canonicalFilter A)) := by
  have hEq : fireServiceEvent st ev =
      ((List.enumFrom 0 st.bundles).flatMap (fun p =>
        (List.enumFrom 0 p.2.serviceListenerFilters).filterMap (fun q =>
          if q.2 = canonicalFilter sr.serviceName then
            (p.2.serviceListeners[q.1]?).map (fun l => ⟨p.1, q.1, l, ev⟩)
          else none)), none) := by
    unfold fireServiceEvent
    rw [href]
    exact fireBundles_eq (canonicalFilter sr.serviceName) ev st.bundles 0 hwf
  have hmem : ∀ d ∈ (fireServiceEvent st ev).1,
      ∃ b, st.bundles[d.bundleIdx]? = some b ∧
        b.serviceListenerFilters[d.listenerIdx]? = some (canonicalFilter sr.serviceName) ∧
        b.serviceListeners[d.listenerIdx]? = some d.listener ∧ d.event = ev := by
    intro d hd
    rw [hEq] at hd
    simp only at hd
    rcases List.mem_flatMap.mp hd with ⟨p, hp, hd2⟩
    rcases p with ⟨i, b⟩
    have hpb := List.mem_enumFrom hp
    rcases List.mem_filterMap.mp hd2 with ⟨q, hq, heq⟩
    rcases q with ⟨j, fj⟩
    have hqj := List.mem_enumFrom hq
    by_cases hfj : fj = canonicalFilter sr.serviceName
    · rw [if_pos hfj] at heq
      rcases Option.map_eq_some'.mp heq with ⟨l, hl, hdl⟩
      subst hdl
      refine ⟨b, ?_, ?_, ?_, rfl⟩
      · simp only
        have : i < st.bundles.length := by
          have := hpb.2.1
          simpa using this
        rw [List.getElem?_eq_getElem this]
        have hbi := hpb.2.2
        simp at hbi
        rw [hbi]
      · simp only
        have hjlen : j < b.serviceListenerFilters.length := by
          have := hqj.2.1
          simpa using this
        rw [List.getElem?_eq_getElem hjlen]
        have hfjv := hqj.2.2
        simp at hfjv
        rw [← hfjv, hfj]
      · simpa using hl
    · rw [if_neg hfj] at heq
      cases heq
  refine ⟨hEq, hmem, ?_⟩
  intro A hA d hd b hb hcontra
  rcases hmem d hd with ⟨b2, hb2, hfilt, _, _⟩
  rw [hb] at hb2
  cases hb2
  rw [hcontra] at hfilt
  exact hA (canonicalFilter_inj A sr.serviceName (Option.some.inj hfilt))

/-- Witness for C2: the exactness theorem applied to the concrete
registry `exState` and the UNREGISTERING event for reference 0; the only
delivery goes to the single listener subscribed with the matching
canonical filter. -/
theorem fire_service_event_exact_witness :
    (fireServiceEvent exState ⟨SE.UNREGISTERING, 0⟩).1 =
      [⟨0, 0, 5, ⟨SE.UNREGISTERING, 0⟩⟩] := by
  have h := (fire_service_event_exact exState ⟨SE.UNREGISTERING, 0⟩ ⟨some 0, strX, 7⟩ rfl
      (by decide)).1
  rw [h]
  decide

/-- `eraseIdx` commutes with `map`. -/
theorem map_eraseIdx {α β : Type _} (f : α → β) :
    ∀ (l : List α) (i : Nat), (l.map f).eraseIdx i = (l.eraseIdx i).map f := by
  intro l
  induction l with
  | nil => intro i; simp
  | cons a rest ih =>
    intro i
    cases i with
    | zero => simp [List.eraseIdx]
    | succ n => simp [List.eraseIdx, ih n]

/-- A successful `findIdx?` starting at `i` yields an index in range. -/
theorem findIdx?_start_some {α : Type _} (p : α → Bool) :
    ∀ (l : List α) (i j : Nat), List.findIdx? p l i = some j → i ≤ j ∧ j - i < l.length := by
  intro l
  induction l with
  | nil => intro i j h; simp [List.findIdx?] at h
  | cons a rest ih =>
    intro i j h
    rw [List.findIdx?_cons] at h
    by_cases hp : p a = true
    · rw [if_pos hp] at h
      cases h
      simp
    · rw [if_neg hp] at h
      rcases ih (i+1) j h with ⟨h1, h2⟩
      refine ⟨by omega, ?_⟩
      simp only [List.length_cons]
      omega

/-- C9: for every sequence of `addServiceListener`,
`removeServiceListener` and lifecycle-teardown operations run on a
bundle whose listener/filter sequences are index-aligned (they are the
component-wise projections of one list of pairs registered together),
every successful run leaves them index-aligned: the resulting sequences
are the projections of the pair list produced by the same operations on
the paired reference semantics, and in particular have equal length. -/
theorem listener_filter_alignment :
    ∀ (ops : List LOp) (st : OSGiState) (bIdx : Nat) (b : BundleObj)
      (ps : List (Listener × Str)),
    st.bundles[bIdx]? = some b →
    b.serviceListeners = ps.map Prod.fst →
    b.serviceListenerFilters = ps.map Prod.snd →
    ∀ st2, runLOps st bIdx ops = (st2, none) →
    ∃ b2 ps2, st2.bundles[bIdx]? = some b2 ∧ lRunPairs ps ops = some ps2 ∧
      b2.serviceListeners = ps2.map Prod.fst ∧
      b2.serviceListenerFilters = ps2.map Prod.snd ∧
      b2.serviceListeners.length = b2.serviceListenerFilters.length := by
  intro ops
  induction ops with
  | nil =>
    intro st bIdx b ps hb hl hf st2 hrun
    simp only [runLOps, Prod.mk.injEq] at hrun
    refine ⟨b, ps, ?_, rfl, hl, hf, ?_⟩
    · rw [← hrun.1]; exact hb
    · rw [hl, hf]; simp
  | cons op rest ih =>
    intro st bIdx b ps hb hl hf st2 hrun
    have hlt : bIdx < st.bundles.length := (List.getElem?_eq_some.mp hb).1
    cases op with
    | add l f =>
      have hstep : runLOp st bIdx (.add l f) =
          ({ st with bundles := st.bundles.set bIdx
                                  ({ b with serviceListeners := b.serviceListeners ++ [l],
                                            serviceListenerFilters := b.serviceListenerFilters ++ [f] }) },
           none) := by
        simp only [runLOp, runCtxAction, hb]
      rw [runLOps, hstep] at hrun
      simp only at hrun
      have hb2 : ({ st with bundles := st.bundles.set bIdx
                                         ({ b with serviceListeners := b.serviceListeners ++ [l],
                                                   serviceListenerFilters := b.serviceListenerFilters ++ [f] }) }
            : OSGiState).bundles[bIdx]? =
          some { b with serviceListeners := b.serviceListeners ++ [l],
                        serviceListenerFilters := b.serviceListenerFilters ++ [f] } := by
        simp only
        exact List.getElem?_set_self hlt
      rcases ih _ bIdx _ (ps ++ [(l, f)]) hb2
          (by simp [hl]) (by simp [hf]) st2 hrun with ⟨b2, ps2, ha, hrp, c1, c2, c3⟩
      exact ⟨b2, ps2, ha, by simpa [lRunPairs, lStepPairs] using hrp, c1, c2, c3⟩
    | rem l =>
      cases hfind : b.serviceListeners.findIdx? (fun x => x = l) with
      | none =>
        have hstep : runLOp st bIdx (.rem l) = (st, some .ub) := by
          simp only [runLOp, runCtxAction, hb, hfind]
        rw [runLOps, hstep] at hrun
        simp at hrun
      | some j =>
        have hjlt : j < b.serviceListeners.length :=
          by have := findIdx?_start_some (fun x => decide (x = l)) b.serviceListeners 0 j hfind
             omega
        have hjf : j < b.serviceListenerFilters.length := by
          rw [hf]
          rw [hl] at hjlt
          simpa using hjlt
        have hstep : runLOp st bIdx (.rem l) =
            ({ st with bundles := st.bundles.set bIdx
                                    ({ b with serviceListeners := b.serviceListeners.eraseIdx j,
                                              serviceListenerFilters := b.serviceListenerFilters.eraseIdx j }) },
             none) := by
          simp only [runLOp, runCtxAction, hb, hfind, if_pos hjf]
        rw [runLOps, hstep] at hrun
        simp only at hrun
        have hb2 : ({ st with bundles := st.bundles.set bIdx
                                           ({ b with serviceListeners := b.serviceListeners.eraseIdx j,
                                                     serviceListenerFilters := b.serviceListenerFilters.eraseIdx j }) }
              : OSGiState).bundles[bIdx]? =
            some { b with serviceListeners := b.serviceListeners.eraseIdx j,
                          serviceListenerFilters := b.serviceListenerFilters.eraseIdx j } := by
          simp only
          exact List.getElem?_set_self hlt
        have hcomp : List.findIdx? ((fun x => decide (x = l)) ∘ Prod.fst) ps = some j := by
          rw [← List.findIdx?_map, ← hl]
          exact hfind
        have hfindp : ps.findIdx? (fun p => p.1 = l) = some j := hcomp
        rcases ih _ bIdx _ (ps.eraseIdx j) hb2
            (by rw [hl, map_eraseIdx]) (by rw [hf, map_eraseIdx]) st2 hrun with
          ⟨b2, ps2, ha, hrp, c1, c2, c3⟩
        refine ⟨b2, ps2, ha, ?_, c1, c2, c3⟩
        simpa [lRunPairs, lStepPairs, hfindp] using hrp
    | teardown =>
      have hstep : runLOp st bIdx .teardown =
          ({ st with bundles := st.bundles.set bIdx
                                  ({ b with serviceListeners := [], serviceListenerFilters := [] }) },
           none) := by
        simp only [runLOp, unregisterListenersSt, updateBundle, hb]
      rw [runLOps, hstep] at hrun
      simp only at hrun
      have hb2 : ({ st with bundles := st.bundles.set bIdx
                                         ({ b with serviceListeners := [], serviceListenerFilters := [] }) }
            : OSGiState).bundles[bIdx]? =
          some { b with serviceListeners := [], serviceListenerFilters := [] } := by
        simp only
        exact List.getElem?_set_self hlt
      rcases ih _ bIdx _ ([] : List (Listener × Str)) hb2 (by simp) (by simp) st2 hrun with
        ⟨b2, ps2, ha, hrp, c1, c2, c3⟩
      exact ⟨b2, ps2, ha, by simpa [lRunPairs, lStepPairs] using hrp, c1, c2, c3⟩

/-- Witness for C9: the alignment theorem applied to the concrete bundle
of `exState` (initially one (listener 5, canonical filter) pair) and a
concrete operation sequence covering add, remove and teardown. -/
theorem listener_filter_alignment_witness :
    ∃ b2 ps2,
      ((runLOps exState 0 [.add 1 strA, .rem 1, .teardown, .add 2 strX]).1).bundles[0]? = some b2 ∧
      lRunPairs [(5, canonicalFilter strX)] [.add 1 strA, .rem 1, .teardown, .add 2 strX] = some ps2 ∧
      b2.serviceListeners = ps2.map Prod.fst ∧
      b2.serviceListenerFilters = ps2.map Prod.snd ∧
      b2.serviceListeners.length = b2.serviceListenerFilters.length :=
  listener_filter_alignment [.add 1 strA, .rem 1, .teardown, .add 2 strX] exState 0 exBundle
    [(5, canonicalFilter strX)] rfl rfl rfl
    (runLOps exState 0 [.add 1 strA, .rem 1, .teardown, .add 2 strX]).1 (by rfl)

/-- Setting an index to the value it already holds is the identity. -/
theorem set_self_of_getElem? {α : Type _} :
    ∀ (l : List α) (i : Nat) (a : α), l[i]? = some a → l.set i a = l := by
  intro l
  induction l with
  | nil => intro i a h; simp at h
  | cons x rest ih =>
    intro i a h
    cases i with
    | zero =>
      simp at h
      simp [List.set, h]
    | succ n =>
      simp at h
      simp [List.set, ih n a h]

/-- A bundle update that keeps the symbolic name and activator keeps
the registry signature. -/
theorem sig_updateBundle (st : OSGiState) (i : Nat) (f : BundleObj → BundleObj)
    (hf : ∀ b, (f b).symbolicName = b.symbolicName ∧ (f b).activator = b.activator) :
    sig (updateBundle st i f) = sig st := by
  unfold updateBundle
  cases hg : st.bundles[i]? with
  | none => rfl
  | some b =>
    show sig { st with bundles := st.bundles.set i (f b) } = sig st
    unfold sig
    simp only
    rw [List.map_set]
    have he : ((f b).symbolicName, (f b).activator) = (b.symbolicName, b.activator) := by
      rw [(hf b).1, (hf b).2]
    rw [he]
    apply set_self_of_getElem?
    rw [List.getElem?_map, hg]
    rfl

/-- The unregistration loop only mutates the reference heap. -/
theorem bundles_unregLoop :
    ∀ (refs : List Nat) (st : OSGiState), ((unregLoop st refs).1).bundles = st.bundles := by
  intro refs
  induction refs with
  | nil => intro st; rfl
  | cons r rest ih =>
    intro st
    simp only [unregLoop]
    cases hf : (fireServiceEvent st ⟨SE.UNREGISTERING, r⟩).2 with
    | some e => simp [hf]
    | none =>
      simp only [hf]
      cases hg : st.srefHeap[r]? with
      | none => simp
      | some sr => simp [hg, ih]

/-- Setting a bundle whose name and activator are unchanged leaves the
(name, activator) projection of the bundle list unchanged. -/
theorem mapSig_set (bs : List BundleObj) (i : Nat) (b b2 : BundleObj)
    (hb : bs[i]? = some b) (hname : b2.symbolicName = b.symbolicName)
    (hact : b2.activator = b.activator) :
    (bs.set i b2).map (fun x => (x.symbolicName, x.activator)) =
      bs.map (fun x => (x.symbolicName, x.activator)) := by
  rw [List.map_set]
  have he : (b2.symbolicName, b2.activator) = (b.symbolicName, b.activator) := by
    rw [hname, hact]
  simp only [he]
  apply set_self_of_getElem?
  rw [List.getElem?_map, hb]
  rfl

/-- `registerService` keeps the registry signature. -/
theorem sig_registerService (st : OSGiState) (bIdx : Nat) (n : Str) (svc : Nat) :
    sig ((registerService st bIdx n svc).1) = sig st := by
  simp only [registerService]
  cases hb : st.bundles[bIdx]? with
  | none => simp
  | some b =>
    simp only [sig]
    exact mapSig_set st.bundles bIdx b _ hb rfl rfl

/-- Every context call keeps the registry signature. -/
theorem sig_runCtxAction (st : OSGiState) (bIdx : Nat) (a : CtxAction) :
    sig ((runCtxAction st bIdx a).1) = sig st := by
  cases a with
  | registerService n s => exact sig_registerService st bIdx n s
  | addServiceListener l f =>
    simp only [runCtxAction]
    cases hb : st.bundles[bIdx]? with
    | none => simp
    | some b =>
      simp only [sig]
      exact mapSig_set st.bundles bIdx b _ hb rfl rfl
  | removeServiceListener l =>
    simp only [runCtxAction]
    cases hb : st.bundles[bIdx]? with
    | none => simp
    | some b =>
      cases hfind : b.serviceListeners.findIdx? (fun x => x = l) with
      | none => simp [hfind]
      | some j =>
        simp only [hfind]
        by_cases hj : j < b.serviceListenerFilters.length
        · simp only [hj, if_true, sig]
          exact mapSig_set st.bundles bIdx b _ hb rfl rfl
        · simp [hj]

/-- A hook's context-call sequence keeps the registry signature. -/
theorem sig_runActions (bIdx : Nat) :
    ∀ (actions : List CtxAction) (st : OSGiState),
      sig ((runActions bIdx st actions).1) = sig st := by
  intro actions
  induction actions with
  | nil => intro st; rfl
  | cons a rest ih =>
    intro st
    simp only [runActions]
    cases he : (runCtxAction st bIdx a).2.2 with
    | some e =>
      simp only [he]
      exact sig_runCtxAction st bIdx a
    | none =>
      simp only [he]
      rw [ih ((runCtxAction st bIdx a).1)]
      exact sig_runCtxAction st bIdx a

/-- The activator's start hook keeps the registry signature. -/
theorem sig_runStartHook (st : OSGiState) (bIdx : Nat) :
    sig ((runStartHook st bIdx).1) = sig st := by
  simp only [runStartHook]
  cases hb : st.bundles[bIdx]? with
  | none => simp
  | some b =>
    simp only
    cases hc : b.context with
    | none =>
      simp only [hc]
      by_cases ha : b.activator.startActions = []
      · simp [ha]
      · simp [ha]
    | some ctx =>
      simp only [hc]
      cases he : (runActions ctx.bundle st b.activator.startActions).2.2 with
      | some e =>
        simp only [he]
        exact sig_runActions ctx.bundle b.activator.startActions st
      | none =>
        simp only [he]
        exact sig_runActions ctx.bundle b.activator.startActions st

/-- The activator's stop hook keeps the registry signature. -/
theorem sig_runStopHook (st : OSGiState) (bIdx : Nat) :
    sig ((runStopHook st bIdx).1) = sig st := by
  simp only [runStopHook]
  cases hb : st.bundles[bIdx]? with
  | none => simp
  | some b =>
    simp only
    cases hc : b.context with
    | none =>
      simp only [hc]
      by_cases ha : b.activator.stopActions = []
      · simp [ha]
      · simp [ha]
    | some ctx =>
      simp only [hc]
      cases he : (runActions ctx.bundle st b.activator.stopActions).2.2 with
      | some e =>
        simp only [he]
        exact sig_runActions ctx.bundle b.activator.stopActions st
      | none =>
        simp only [he]
        exact sig_runActions ctx.bundle b.activator.stopActions st

/-- The unregistration loop keeps the registry signature. -/
theorem sig_unregLoop (refs : List Nat) (st : OSGiState) :
    sig ((unregLoop st refs).1) = sig st := by
  unfold sig
  rw [bundles_unregLoop refs st]

/-- `unregisterServices` keeps the registry signature. -/
theorem sig_unregisterServices (st : OSGiState) (bIdx : Nat) :
    sig ((unregisterServices st bIdx).1) = sig st := by
  simp only [unregisterServices]
  cases hb : st.bundles[bIdx]? with
  | none => simp
  | some b =>
    cases he : (unregLoop st b.serviceReferences).2.2 with
    | some e =>
      simp only [he]
      exact sig_unregLoop b.serviceReferences st
    | none =>
      simp only [he]
      trans sig (unregLoop st b.serviceReferences).1
      · exact sig_updateBundle _ _ _ (fun b2 => ⟨rfl, rfl⟩)
      · exact sig_unregLoop b.serviceReferences st

/-- `unregisterListeners` keeps the registry signature. -/
theorem sig_unregisterListenersSt (st : OSGiState) (bIdx : Nat) :
    sig (unregisterListenersSt st bIdx) = sig st := by
  unfold unregisterListenersSt
  exact sig_updateBundle _ _ _ (fun b2 => ⟨rfl, rfl⟩)

/-- `BundleImpl::start` keeps the registry signature: no symbolic name
or stored activator is ever changed, no bundle added or removed. -/
theorem sig_bundleStart (st : OSGiState) (bIdx : Nat) :
    sig ((bundleStart st bIdx).1) = sig st := by
  simp only [bundleStart]
  cases hb : st.bundles[bIdx]? with
  | none => simp
  | some b =>
    simp only
    by_cases hs : b.state ≠ BState.RESOLVED
    · simp [hs]
    · simp only [hs, if_false]
      generalize hst1 : updateBundle st bIdx
          (fun b2 => { b2 with state := BState.STARTING }) = st1
      have h1 : sig st1 = sig st := by
        rw [← hst1]
        exact sig_updateBundle _ _ _ (fun b2 => ⟨rfl, rfl⟩)
      generalize hr : runStartHook st1 bIdx = r
      have h2 : sig r.1 = sig st1 := by
        rw [← hr]
        exact sig_runStartHook _ _
      cases he : r.2.2 with
      | none =>
        simp only [he]
        trans sig r.1
        · exact sig_updateBundle _ _ _ (fun b2 => ⟨rfl, rfl⟩)
        · exact h2.trans h1
      | some e =>
        simp only [he]
        generalize hst3 : updateBundle r.1 bIdx
            (fun b2 => { b2 with state := BState.STOPPING }) = st3
        have h3 : sig st3 = sig r.1 := by
          rw [← hst3]
          exact sig_updateBundle _ _ _ (fun b2 => ⟨rfl, rfl⟩)
        generalize hu2 : unregisterServices st3 bIdx = u
        have h4 : sig u.1 = sig st3 := by
          rw [← hu2]
          exact sig_unregisterServices _ _
        cases hu : u.2.2 with
        | some e2 =>
          simp only [hu]
          exact h4.trans (h3.trans (h2.trans h1))
        | none =>
          simp only [hu]
          trans sig (unregisterListenersSt u.1 bIdx)
          · exact sig_updateBundle _ _ _ (fun b2 => ⟨rfl, rfl⟩)
          · exact (sig_unregisterListenersSt _ _).trans (h4.trans (h3.trans (h2.trans h1)))

/-- `BundleImpl::stop` keeps the registry signature. -/
theorem sig_bundleStop (st : OSGiState) (bIdx : Nat) :
    sig ((bundleStop st bIdx).1) = sig st := by
  simp only [bundleStop]
  cases hb : st.bundles[bIdx]? with
  | none => simp
  | some b =>
    simp only
    by_cases hs : b.state ≠ BState.ACTIVE
    · simp [hs]
    · simp only [hs, if_false]
      generalize hst1 : updateBundle st bIdx
          (fun b2 => { b2 with state := BState.STOPPING }) = st1
      have h1 : sig st1 = sig st := by
        rw [← hst1]
        exact sig_updateBundle _ _ _ (fun b2 => ⟨rfl, rfl⟩)
      generalize hr : runStopHook st1 bIdx = r
      have h2 : sig r.1 = sig st1 := by
        rw [← hr]
        exact sig_runStopHook _ _
      generalize hu2 : unregisterServices r.1 bIdx = u
      have h4 : sig u.1 = sig r.1 := by
        rw [← hu2]
        exact sig_unregisterServices _ _
      cases hu : u.2.2 with
      | some e2 =>
        simp only [hu]
        exact h4.trans (h2.trans h1)
      | none =>
        simp only [hu]
        trans sig (unregisterListenersSt u.1 bIdx)
        · exact sig_updateBundle _ _ _ (fun b2 => ⟨rfl, rfl⟩)
        · exact (sig_unregisterListenersSt _ _).trans (h4.trans (h2.trans h1))

/-- `getBundle` lookup is determined by the registry signature. -/
theorem getBundleIdx_sig (st : OSGiState) (name : Str) :
    getBundleIdx st name = List.findIdx? (fun p => p.1 == name) (sig st) := by
  unfold getBundleIdx sig
  rw [List.findIdx?_map]
  rfl

/-- The body of `OSGiImpl::start` extends the signature by the new
(name, activator) pair exactly when no bundle with that name existed,
and otherwise leaves it unchanged. -/
theorem sig_osgiStartBody (st : OSGiState) (name : Str) (act : Activator) :
    sig ((osgiStartBody st name act).1) =
      (match getBundleIdx st name with
       | some _ => sig st
       | none => sig st ++ [(name, act)]) := by
  unfold osgiStartBody
  cases hg : getBundleIdx st name with
  | some i =>
    simp only [hg]
    generalize hst2 : updateBundle st i
        (fun b => { b with context := some ⟨st.nextCtxId, i⟩ }) = st2
    have h1 : sig st2 = sig st := by
      rw [← hst2]
      exact sig_updateBundle _ _ _ (fun b2 => ⟨rfl, rfl⟩)
    exact (sig_bundleStart _ _).trans h1
  | none =>
    simp only [hg]
    trans sig (updateBundle { st with bundles := st.bundles ++ [freshBundle name act] }
        st.bundles.length
        (fun b => { b with context := some ⟨st.nextCtxId, st.bundles.length⟩ }))
    · exact sig_bundleStart _ _
    · trans sig ({ st with bundles := st.bundles ++ [freshBundle name act] } : OSGiState)
      · exact sig_updateBundle _ _ _ (fun b2 => ⟨rfl, rfl⟩)
      · unfold sig
        simp [freshBundle]

/-- Same as `sig_osgiStartBody` for the catching wrapper. -/
theorem sig_osgiStart (st : OSGiState) (name : Str) (act : Activator) :
    sig ((osgiStart st name act).1) =
      (match getBundleIdx st name with
       | some _ => sig st
       | none => sig st ++ [(name, act)]) := by
  unfold osgiStart
  cases he : (osgiStartBody st name act).2.2 with
  | none =>
    simp only [he]
    exact sig_osgiStartBody st name act
  | some e =>
    simp only [he]
    exact sig_osgiStartBody st name act

/-- Lookup is invariant under signature equality. -/
theorem getBundleIdx_congr (st2 st : OSGiState) (name : Str) (h : sig st2 = sig st) :
    getBundleIdx st2 name = getBundleIdx st name := by
  rw [getBundleIdx_sig, getBundleIdx_sig, h]

/-- Starting an existing name leaves the signature unchanged. -/
theorem sig_osgiStart_found (st : OSGiState) (name : Str) (a : Activator) (i : Nat)
    (h : getBundleIdx st name = some i) :
    sig ((osgiStart st name a).1) = sig st := by
  simp [sig_osgiStart, h]

/-- After `OSGiImpl::start`, the name resolves to the pre-existing index
or, when freshly created, to the old bundle count. -/
theorem getBundleIdx_after_start (st : OSGiState) (name : Str) (a : Activator) :
    getBundleIdx ((osgiStart st name a).1) name =
      (match getBundleIdx st name with
       | some i => some i
       | none => some st.bundles.length) := by
  cases hg : getBundleIdx st name with
  | some i =>
    rw [getBundleIdx_congr _ _ _ (sig_osgiStart_found st name a i hg), hg]
  | none =>
    have hsig : sig ((osgiStart st name a).1) = sig st ++ [(name, a)] := by
      simp [sig_osgiStart, hg]
    rw [getBundleIdx_sig, hsig, List.findIdx?_append]
    have h1 : List.findIdx? (fun p => p.1 == name) (sig st) = none := by
      rw [← getBundleIdx_sig]
      exact hg
    rw [h1]
    simp [List.findIdx?_cons, sig]

/-- Once a name resolves, any sequence of further starts keeps the
signature unchanged. -/
theorem sig_foldl_starts (name : Str) :
    ∀ (acts : List Activator) (s : OSGiState) (i : Nat),
    getBundleIdx s name = some i →
    sig (acts.foldl (fun s2 a => (osgiStart s2 name a).1) s) = sig s := by
  intro acts
  induction acts with
  | nil => intro s i h; rfl
  | cons a rest ih =>
    intro s i h
    simp only [List.foldl_cons]
    have h1 := sig_osgiStart_found s name a i h
    have h2 : getBundleIdx ((osgiStart s name a).1) name = some i := by
      rw [getBundleIdx_congr _ _ _ h1, h]
    rw [ih _ i h2, h1]

/-- C7: for any sequence of `Registry.start` calls with one symbolic
name and arbitrary activators, `getBundle(name)` resolves to the same
bundle index after every call, and the (symbolic name, activator)
signature of the registry — in particular the stored activator of that
bundle — never changes after the first call; when a bundle with the
name already existed, it is reused at its index with its stored
activator untouched. -/
theorem registry_start_idempotent_lookup (st : OSGiState) (name : Str) (act : Activator)
    (acts : List Activator) :
    ∃ i, getBundleIdx ((osgiStart st name act).1) name = some i ∧
      getBundleIdx
        (acts.foldl (fun s a => (osgiStart s name a).1) ((osgiStart st name act).1)) name =
        some i ∧
      sig (acts.foldl (fun s a => (osgiStart s name a).1) ((osgiStart st name act).1)) =
        sig ((osgiStart st name act).1) ∧
      (∀ i0, getBundleIdx st name = some i0 →
        i = i0 ∧ (sig ((osgiStart st name act).1))[i0]? = (sig st)[i0]?) := by
  have hafter := getBundleIdx_after_start st name act
  cases hg : getBundleIdx st name with
  | some i0 =>
    rw [hg] at hafter
    have hsig := sig_osgiStart_found st name act i0 hg
    have hfold := sig_foldl_starts name acts ((osgiStart st name act).1) i0 hafter
    refine ⟨i0, hafter, ?_, hfold, ?_⟩
    · rw [getBundleIdx_congr _ _ _ hfold, hafter]
    · intro j hj
      cases hj
      exact ⟨rfl, by rw [hsig]⟩
  | none =>
    rw [hg] at hafter
    have hfold := sig_foldl_starts name acts ((osgiStart st name act).1) st.bundles.length hafter
    refine ⟨st.bundles.length, hafter, ?_, hfold, ?_⟩
    · rw [getBundleIdx_congr _ _ _ hfold, hafter]
    · intro j hj
      cases hj

/-- Witness for C7: the idempotent-lookup theorem applied to the
concrete registry `exState`, whose bundle `A` already exists. -/
theorem registry_start_idempotent_lookup_witness :
    ∃ i, getBundleIdx ((osgiStart exState strA exAct).1) strA = some i ∧
      getBundleIdx
        ([exAct].foldl (fun s a => (osgiStart s strA a).1) ((osgiStart exState strA exAct).1))
        strA = some i ∧
      sig ([exAct].foldl (fun s a => (osgiStart s strA a).1) ((osgiStart exState strA exAct).1)) =
        sig ((osgiStart exState strA exAct).1) ∧
      (∀ i0, getBundleIdx exState strA = some i0 →
        i = i0 ∧ (sig ((osgiStart exState strA exAct).1))[i0]? = (sig exState)[i0]?) :=
  registry_start_idempotent_lookup exState strA exAct [exAct]

/-- C6: `OSGiImpl::start` and `OSGiImpl::stop` catch every error raised
beneath them (illegal bundle state, missing bundle, activator failure,
any other raise of the body): both return normally, appending a single
log entry carrying the caught error to the delivery trace; a missing
bundle on `stop` leaves the state unchanged and produces only the log
line. -/
theorem registry_boundary_catches (st : OSGiState) (name : Str) (act : Activator) :
    (∀ e, (osgiStartBody st name act).2.2 = some e →
      osgiStart st name act = ((osgiStartBody st name act).1,
        (osgiStartBody st name act).2.1.map TraceEntry.deliver ++ [TraceEntry.log e])) ∧
    ((osgiStartBody st name act).2.2 = none →
      osgiStart st name act = ((osgiStartBody st name act).1,
        (osgiStartBody st name act).2.1.map TraceEntry.deliver)) ∧
    (∀ e, (osgiStopBody st name).2.2 = some e →
      osgiStop st name = ((osgiStopBody st name).1,
        (osgiStopBody st name).2.1.map TraceEntry.deliver ++ [TraceEntry.log e])) ∧
    ((osgiStopBody st name).2.2 = none →
      osgiStop st name = ((osgiStopBody st name).1,
        (osgiStopBody st name).2.1.map TraceEntry.deliver)) ∧
    (getBundleIdx st name = none →
      osgiStop st name = (st, [TraceEntry.log (Err.exception (cannotFindMsg name))])) := by
  refine ⟨?_, ?_, ?_, ?_, ?_⟩
  · intro e he
    unfold osgiStart
    simp only [he]
  · intro he
    unfold osgiStart
    simp only [he]
  · intro e he
    unfold osgiStop
    simp only [he]
  · intro he
    unfold osgiStop
    simp only [he]
  · intro hg
    unfold osgiStop osgiStopBody
    simp only [hg]
    rfl

/-- C10: `Registry.start` on a name whose bundle is not RESOLVED raises
nothing to the caller and only logs the illegal-state error, leaves the
bundle sequence's length, every other bundle, and every field of the
target bundle except its context unchanged — but has already replaced
the stored bundle-context with a freshly constructed context object
(fresh id, hence different from the old context) before the
illegal-state failure is detected. -/
theorem registry_start_nonresolved_frame (st : OSGiState) (name : Str) (act : Activator)
    (i : Nat) (b : BundleObj) (hidx : getBundleIdx st name = some i)
    (hb : st.bundles[i]? = some b) (hst : b.state ≠ BState.RESOLVED)
    (hfresh : ∀ c, b.context = some c → c.id < st.nextCtxId) :
    osgiStart st name act =
      ({ st with
          bundles := st.bundles.set i ({ b with context := some ⟨st.nextCtxId, i⟩ }),
          nextCtxId := st.nextCtxId + 1 },
       [TraceEntry.log (Err.exception (notResolvedMsg b.symbolicName))]) ∧
    some (⟨st.nextCtxId, i⟩ : Ctx) ≠ b.context ∧
    (∀ j, j ≠ i →
      (st.bundles.set i ({ b with context := some ⟨st.nextCtxId, i⟩ }))[j]? = st.bundles[j]?) ∧
    (st.bundles.set i ({ b with context := some ⟨st.nextCtxId, i⟩ }))[i]? =
      some ({ b with context := some ⟨st.nextCtxId, i⟩ }) := by
  have hlt : i < st.bundles.length := (List.getElem?_eq_some.mp hb).1
  have hset : (st.bundles.set i ({ b with context := some ⟨st.nextCtxId, i⟩ }))[i]? =
      some ({ b with context := some ⟨st.nextCtxId, i⟩ }) :=
    List.getElem?_set_self hlt
  refine ⟨?_, ?_, fun j hj => List.getElem?_set_ne (fun hx => hj hx.symm), hset⟩
  · unfold osgiStart osgiStartBody updateBundle bundleStart
    simp only [hidx, hb, hset]
    rw [if_pos hst]
    simp
  · cases hc : b.context with
    | none => simp
    | some c =>
      have := hfresh c hc
      intro hx
      have hcx : (⟨st.nextCtxId, i⟩ : Ctx) = c := Option.some.inj hx
      rw [← hcx] at this
      simp at this

/-- Witness for C6: starting the non-RESOLVED bundle `A` of `exState`
(illegal state) and stopping the unknown name `X` both return normally
with only a log entry. -/
theorem registry_boundary_catches_witness :
    osgiStart exState strA exAct = ((osgiStartBody exState strA exAct).1,
      (osgiStartBody exState strA exAct).2.1.map TraceEntry.deliver ++
        [TraceEntry.log (Err.exception (notResolvedMsg strA))]) ∧
    osgiStop exState strX = (exState, [TraceEntry.log (Err.exception (cannotFindMsg strX))]) :=
  ⟨(registry_boundary_catches exState strA exAct).1 (Err.exception (notResolvedMsg strA)) (by rfl),
   (registry_boundary_catches exState strX exAct).2.2.2.2 (by rfl)⟩

/-- Witness for C10: the frame theorem applied to the ACTIVE bundle `A`
of `exState`. -/
theorem registry_start_nonresolved_frame_witness :
    osgiStart exState strA exAct =
      ({ exState with
          bundles := exState.bundles.set 0 ({ exBundle with context := some ⟨exState.nextCtxId, 0⟩ }),
          nextCtxId := exState.nextCtxId + 1 },
       [TraceEntry.log (Err.exception (notResolvedMsg exBundle.symbolicName))]) ∧
    some (⟨exState.nextCtxId, 0⟩ : Ctx) ≠ exBundle.context ∧
    (∀ j, j ≠ 0 →
      (exState.bundles.set 0 ({ exBundle with context := some ⟨exState.nextCtxId, 0⟩ }))[j]? =
        exState.bundles[j]?) ∧
    (exState.bundles.set 0 ({ exBundle with context := some ⟨exState.nextCtxId, 0⟩ }))[0]? =
      some ({ exBundle with context := some ⟨exState.nextCtxId, 0⟩ }) :=
  registry_start_nonresolved_frame exState strA exAct 0 exBundle rfl rfl
    (by decide) (by intro c hc; cases hc; decide)

/-- A bundle update that keeps the listener, filter and reference
sequences keeps registry well-formedness. -/
theorem WF_updateBundle_keep (st : OSGiState) (i : Nat) (f : BundleObj → BundleObj)
    (hf : ∀ b, (f b).serviceListeners = b.serviceListeners ∧
      (f b).serviceListenerFilters = b.serviceListenerFilters ∧
      (f b).serviceReferences = b.serviceReferences)
    (h : WF st) : WF (updateBundle st i f) := by
  unfold updateBundle
  cases hg : st.bundles[i]? with
  | none => exact h
  | some b =>
    constructor
    · intro b2 hb2
      rcases List.mem_or_eq_of_mem_set hb2 with hm | he
      · exact h.1 b2 hm
      · subst he
        rw [(hf b).1, (hf b).2.1]
        exact h.1 b (List.getElem?_mem hg)
    · intro b2 hb2 r hr
      rcases List.mem_or_eq_of_mem_set hb2 with hm | he
      · exact h.2 b2 hm r hr
      · subst he
        rw [(hf b).2.2] at hr
        exact h.2 b (List.getElem?_mem hg) r hr

/-- `registerService` keeps registry well-formedness. -/
theorem WF_registerService (st : OSGiState) (i : Nat) (n : Str) (s : Nat)
    (h : WF st) : WF ((registerService st i n s).1) := by
  simp only [registerService]
  cases hg : st.bundles[i]? with
  | none => exact h
  | some b =>
    simp only
    constructor
    · intro b2 hb2
      simp only at hb2
      rcases List.mem_or_eq_of_mem_set hb2 with hm | he
      · exact h.1 b2 hm
      · subst he
        exact h.1 b (List.getElem?_mem hg)
    · intro b2 hb2 r hr
      simp only at hb2
      simp only [List.length_append, List.length_cons, List.length_nil]
      rcases List.mem_or_eq_of_mem_set hb2 with hm | he
      · have := h.2 b2 hm r hr
        omega
      · subst he
        simp only [List.mem_append, List.mem_cons, List.not_mem_nil] at hr
        rcases hr with hr | hr
        · have := h.2 b (List.getElem?_mem hg) r hr
          omega
        · simp at hr
          omega

/-- Every context call keeps registry well-formedness. -/
theorem WF_runCtxAction (st : OSGiState) (i : Nat) (a : CtxAction)
    (h : WF st) : WF ((runCtxAction st i a).1) := by
  cases a with
  | registerService n s => exact WF_registerService st i n s h
  | addServiceListener l f =>
    simp only [runCtxAction]
    cases hg : st.bundles[i]? with
    | none => exact h
    | some b =>
      constructor
      · intro b2 hb2
        simp only at hb2
        rcases List.mem_or_eq_of_mem_set hb2 with hm | he
        · exact h.1 b2 hm
        · subst he
          simp only [List.length_append, List.length_cons, List.length_nil]
          rw [h.1 b (List.getElem?_mem hg)]
      · intro b2 hb2 r hr
        simp only at hb2
        rcases List.mem_or_eq_of_mem_set hb2 with hm | he
        · exact h.2 b2 hm r hr
        · subst he
          exact h.2 b (List.getElem?_mem hg) r hr
  | removeServiceListener l =>
    simp only [runCtxAction]
    cases hg : st.bundles[i]? with
    | none => exact h
    | some b =>
      cases hfind : b.serviceListeners.findIdx? (fun x => x = l) with
      | none => simpa [hfind] using h
      | some j =>
        simp only [hfind]
        by_cases hj : j < b.serviceListenerFilters.length
        · simp only [hj, if_true]
          constructor
          · intro b2 hb2
            simp only at hb2
            rcases List.mem_or_eq_of_mem_set hb2 with hm | he
            · exact h.1 b2 hm
            · subst he
              simp only [List.length_eraseIdx]
              have hl := h.1 b (List.getElem?_mem hg)
              have hjl : j < b.serviceListeners.length := by omega
              simp [hjl, hj, hl]
          · intro b2 hb2 r hr
            simp only at hb2
            rcases List.mem_or_eq_of_mem_set hb2 with hm | he
            · exact h.2 b2 hm r hr
            · subst he
              exact h.2 b (List.getElem?_mem hg) r hr
        · simpa [hj] using h

/-- A hook's context-call sequence keeps registry well-formedness,
whether or not it raises. -/
theorem WF_runActions (i : Nat) :
    ∀ (acts : List CtxAction) (st : OSGiState), WF st → WF ((runActions i st acts).1) := by
  intro acts
  induction acts with
  | nil => intro st h; exact h
  | cons a rest ih =>
    intro st h
    simp only [runActions]
    cases he : (runCtxAction st i a).2.2 with
    | some e =>
      simp only [he]
      exact WF_runCtxAction st i a h
    | none =>
      simp only [he]
      exact ih _ (WF_runCtxAction st i a h)

/-- The activator's start hook keeps registry well-formedness. -/
theorem WF_runStartHook (st : OSGiState) (i : Nat) (h : WF st) :
    WF ((runStartHook st i).1) := by
  simp only [runStartHook]
  cases hg : st.bundles[i]? with
  | none => exact h
  | some b =>
    simp only
    cases hc : b.context with
    | none =>
      simp only [hc]
      by_cases ha : b.activator.startActions = [] <;> simp [ha, h]
    | some ctx =>
      simp only [hc]
      cases he : (runActions ctx.bundle st b.activator.startActions).2.2 with
      | some e =>
        simp only [he]
        exact WF_runActions ctx.bundle b.activator.startActions st h
      | none =>
        simp only [he]
        exact WF_runActions ctx.bundle b.activator.startActions st h

/-- Event delivery only depends on the bundles and on the interface
name stored at the event's reference; clearing a reference's bundle
back-reference does not change any delivery. -/
theorem fireServiceEvent_congr (st2 st : OSGiState) (ev : SEvent)
    (hbnd : st2.bundles = st.bundles)
    (hn : (st2.srefHeap[ev.ref]?).map SRefObj.serviceName =
      (st.srefHeap[ev.ref]?).map SRefObj.serviceName) :
    fireServiceEvent st2 ev = fireServiceEvent st ev := by
  unfold fireServiceEvent
  cases hg : st.srefHeap[ev.ref]? with
  | none =>
    rw [hg] at hn
    simp at hn
    rw [List.getElem?_eq_none hn]
  | some sr =>
    rw [hg] at hn
    cases hg2 : st2.srefHeap[ev.ref]? with
    | none => rw [hg2] at hn; simp at hn
    | some sr2 =>
      rw [hg2] at hn
      simp at hn
      show fireBundles (canonicalFilter sr2.serviceName) ev 0 st2.bundles =
        fireBundles (canonicalFilter sr.serviceName) ev 0 st.bundles
      rw [hn, hbnd]

/-- The unregistration loop raises nothing on a well-formed registry
and its deliveries are those of firing each UNREGISTERING event against
the state at the start of the loop — i.e. each event reaches the
listeners while every service is still present, before its removal. -/
theorem unregLoop_trace :
    ∀ (refs : List Nat) (st : OSGiState),
    (∀ r ∈ refs, r < st.srefHeap.length) →
    (∀ b ∈ st.bundles, b.serviceListeners.length = b.serviceListenerFilters.length) →
    unregLoop st refs =
      ((unregLoop st refs).1,
       refs.flatMap (fun r => (fireServiceEvent st ⟨SE.UNREGISTERING, r⟩).1), none) ∧
    (unregLoop st refs).1.bundles = st.bundles ∧
    (unregLoop st refs).1.srefHeap.length = st.srefHeap.length := by
  intro refs
  induction refs with
  | nil =>
    intro st _ _
    exact ⟨rfl, rfl, rfl⟩
  | cons r rest ih =>
    intro st hval hwf
    have hr : r < st.srefHeap.length := hval r (by simp)
    have hget : st.srefHeap[r]? = some (st.srefHeap[r]) := List.getElem?_eq_getElem hr
    have hfire : (fireServiceEvent st ⟨SE.UNREGISTERING, r⟩).2 = none := by
      rw [(fire_service_event_exact st ⟨SE.UNREGISTERING, r⟩ (st.srefHeap[r]) hget hwf).1]
    set st2 : OSGiState :=
      { st with srefHeap := st.srefHeap.set r { st.srefHeap[r] with bundle := none } } with hst2
    have hbnd2 : st2.bundles = st.bundles := rfl
    have hlen2 : st2.srefHeap.length = st.srefHeap.length := by
      simp [hst2]
    have hval2 : ∀ r2 ∈ rest, r2 < st2.srefHeap.length := by
      intro r2 h2
      rw [hlen2]
      exact hval r2 (by simp [h2])
    have hwf2 : ∀ b ∈ st2.bundles, b.serviceListeners.length = b.serviceListenerFilters.length := by
      rw [hbnd2]
      exact hwf
    have hcongr : ∀ r2 ∈ rest, fireServiceEvent st2 ⟨SE.UNREGISTERING, r2⟩ =
        fireServiceEvent st ⟨SE.UNREGISTERING, r2⟩ := by
      intro r2 _
      apply fireServiceEvent_congr st2 st _ hbnd2
      show (st2.srefHeap[r2]?).map SRefObj.serviceName =
        (st.srefHeap[r2]?).map SRefObj.serviceName
      by_cases he : r = r2
      · subst he
        rw [show st2.srefHeap = st.srefHeap.set r { st.srefHeap[r] with bundle := none } from rfl]
        rw [List.getElem?_set_self hr, hget]
        rfl
      · rw [show st2.srefHeap = st.srefHeap.set r { st.srefHeap[r] with bundle := none } from rfl]
        rw [List.getElem?_set_ne he]
    rcases ih st2 hval2 hwf2 with ⟨ihtr, ihb, ihl⟩
    refine ⟨?_, ?_, ?_⟩
    · simp only [unregLoop, hfire, hget]
      rw [ihtr]
      simp only [List.flatMap_cons]
      have hfm : (rest.flatMap fun r2 => (fireServiceEvent st2 ⟨SE.UNREGISTERING, r2⟩).1) =
          (rest.flatMap fun r2 => (fireServiceEvent st ⟨SE.UNREGISTERING, r2⟩).1) :=
        List.flatMap_congr (fun x hx => by rw [hcongr x hx])
      rw [hfm]
    · simp only [unregLoop, hfire, hget]
      rw [ihb]
    · simp only [unregLoop, hfire, hget]
      rw [ihl, hlen2]

/-- Reading back the bundle just updated. -/
theorem updateBundle_get (st : OSGiState) (i : Nat) (f : BundleObj → BundleObj) (b : BundleObj)
    (hb : st.bundles[i]? = some b) :
    (updateBundle st i f).bundles[i]? = some (f b) := by
  simp only [updateBundle, hb]
  exact List.getElem?_set_self (List.getElem?_eq_some.mp hb).1

/-- `unregisterServices` on a well-formed registry: fires the
UNREGISTERING events of all owned references against the pre-teardown
state, then clears the reference sequence, raising nothing. -/
theorem unregisterServices_charact (st : OSGiState) (bIdx : Nat) (b : BundleObj)
    (hb : st.bundles[bIdx]? = some b)
    (hval : ∀ r ∈ b.serviceReferences, r < st.srefHeap.length)
    (hwf : ∀ b2 ∈ st.bundles, b2.serviceListeners.length = b2.serviceListenerFilters.length) :
    unregisterServices st bIdx =
      (updateBundle (unregLoop st b.serviceReferences).1 bIdx
         (fun b2 => { b2 with serviceReferences := [] }),
       b.serviceReferences.flatMap (fun r => (fireServiceEvent st ⟨SE.UNREGISTERING, r⟩).1),
       none) := by
  have h := (unregLoop_trace b.serviceReferences st hval hwf).1
  simp only [unregisterServices, hb]
  rw [h]

/-- C1: for a bundle in state RESOLVED whose activator's start hook
raises during `Bundle.start()` (on a well-formed registry), `start()`
re-raises the wrapped cannot-start error and afterwards the bundle's
registered-service-reference sequence is empty, its listener and filter
sequences are empty, its state is RESOLVED and its context is cleared;
the rollback deliveries are exactly, for each service the bundle had
registered, the UNREGISTERING event fired to the listeners of the
catch-time state — before that service's removal, while every reference
and listener is still in place. -/
theorem bundle_start_rollback (st : OSGiState) (bIdx : Nat) (b : BundleObj)
    (hb : st.bundles[bIdx]? = some b)
    (hres : b.state = BState.RESOLVED)
    (hwf : WF st)
    (st1 : OSGiState) (ds1 : List Delivery) (e : Err)
    (hrun : runStartHook
        (updateBundle st bIdx (fun b2 => { b2 with state := BState.STARTING })) bIdx =
      (st1, ds1, some e)) :
    ∃ b1, st1.bundles[bIdx]? = some b1 ∧
      (bundleStart st bIdx).2.2 = some (Err.exception (cannotStartMsg b.symbolicName)) ∧
      (bundleStart st bIdx).1.bundles[bIdx]? =
        some { b1 with state := BState.RESOLVED,
                       serviceReferences := [],
                       serviceListeners := [],
                       serviceListenerFilters := [],
                       context := none } ∧
      (bundleStart st bIdx).2.1 =
        ds1 ++ b1.serviceReferences.flatMap (fun r =>
          (fireServiceEvent
            (updateBundle st1 bIdx (fun b2 => { b2 with state := BState.STOPPING }))
            ⟨SE.UNREGISTERING, r⟩).1) := by
  have hlt : bIdx < st.bundles.length := (List.getElem?_eq_some.mp hb).1
  -- well-formedness after the failed hook
  have hwfX : WF (updateBundle st bIdx (fun b2 => { b2 with state := BState.STARTING })) :=
    WF_updateBundle_keep st bIdx _ (fun b2 => ⟨rfl, rfl, rfl⟩) hwf
  have hst1 : st1 = (runStartHook
      (updateBundle st bIdx (fun b2 => { b2 with state := BState.STARTING })) bIdx).1 := by
    rw [hrun]
  have hwf1 : WF st1 := by
    rw [hst1]
    exact WF_runStartHook _ _ hwfX
  -- the bundle still sits at its index
  have hsig1 : sig st1 = sig st := by
    rw [hst1]
    exact (sig_runStartHook _ _).trans (sig_updateBundle _ _ _ (fun b2 => ⟨rfl, rfl⟩))
  have hlen1 : st1.bundles.length = st.bundles.length := by
    have := congrArg List.length hsig1
    simpa [sig] using this
  have hlt1 : bIdx < st1.bundles.length := by omega
  have hb1 : st1.bundles[bIdx]? = some st1.bundles[bIdx] := List.getElem?_eq_getElem hlt1
  refine ⟨st1.bundles[bIdx], hb1, ?_⟩
  -- the state at the catch point
  have hb3 : (updateBundle st1 bIdx
        (fun b2 => { b2 with state := BState.STOPPING })).bundles[bIdx]? =
      some { st1.bundles[bIdx] with state := BState.STOPPING } :=
    updateBundle_get st1 bIdx _ _ hb1
  have hwf3 : WF (updateBundle st1 bIdx (fun b2 => { b2 with state := BState.STOPPING })) :=
    WF_updateBundle_keep st1 bIdx _ (fun b2 => ⟨rfl, rfl, rfl⟩) hwf1
  have hval3 : ∀ r ∈ ({ st1.bundles[bIdx] with state := BState.STOPPING }).serviceReferences,
      r < (updateBundle st1 bIdx
        (fun b2 => { b2 with state := BState.STOPPING })).srefHeap.length := by
    intro r hr
    rw [updateBundle_srefHeap]
    exact hwf1.2 st1.bundles[bIdx] (List.getElem?_mem hb1) r hr
  have hchar := unregisterServices_charact
    (updateBundle st1 bIdx (fun b2 => { b2 with state := BState.STOPPING })) bIdx
    { st1.bundles[bIdx] with state := BState.STOPPING } hb3 hval3 hwf3.1
  -- evaluate bundleStart along the failing path
  have hcond : ¬ (b.state ≠ BState.RESOLVED) := fun hx => hx hres
  have hloopb := (unregLoop_trace
    ({ st1.bundles[bIdx] with state := BState.STOPPING }).serviceReferences
    (updateBundle st1 bIdx (fun b2 => { b2 with state := BState.STOPPING }))
    hval3 hwf3.1).2.1
  have hbs : bundleStart st bIdx =
      (updateBundle (unregisterListenersSt
          (updateBundle (unregLoop
              (updateBundle st1 bIdx (fun b2 => { b2 with state := BState.STOPPING }))
              ({ st1.bundles[bIdx] with state := BState.STOPPING }).serviceReferences).1 bIdx
            (fun b2 => { b2 with serviceReferences := [] })) bIdx) bIdx
          (fun b2 => { b2 with state := BState.RESOLVED, context := none }),
       ds1 ++ ({ st1.bundles[bIdx] with state := BState.STOPPING }).serviceReferences.flatMap
         (fun r => (fireServiceEvent
           (updateBundle st1 bIdx (fun b2 => { b2 with state := BState.STOPPING }))
           ⟨SE.UNREGISTERING, r⟩).1),
       some (Err.exception (cannotStartMsg b.symbolicName))) := by
    simp only [bundleStart, hb]
    rw [if_neg hcond, hrun]
    simp only
    rw [hchar]
  rw [hbs]
  refine ⟨rfl, ?_, rfl⟩
  -- final bundle fields
  have hgetU : (updateBundle (unregLoop
      (updateBundle st1 bIdx (fun b2 => { b2 with state := BState.STOPPING }))
      ({ st1.bundles[bIdx] with state := BState.STOPPING }).serviceReferences).1 bIdx
        (fun b2 => { b2 with serviceReferences := [] })).bundles[bIdx]? =
      some { st1.bundles[bIdx] with state := BState.STOPPING, serviceReferences := [] } := by
    have hbb : (unregLoop
        (updateBundle st1 bIdx (fun b2 => { b2 with state := BState.STOPPING }))
        ({ st1.bundles[bIdx] with state := BState.STOPPING }).serviceReferences).1.bundles[bIdx]? =
        some { st1.bundles[bIdx] with state := BState.STOPPING } := by
      rw [hloopb]
      exact hb3
    exact updateBundle_get _ bIdx _ _ hbb
  have hgetL := updateBundle_get _ bIdx
    (fun b2 => { b2 with serviceListeners := ([] : List Listener),
                         serviceListenerFilters := ([] : List Str) }) _ hgetU
  have hgetF := updateBundle_get _ bIdx
    (fun b2 => { b2 with state := BState.RESOLVED, context := none }) _ hgetL
  exact hgetF

/-- Witness for C1: the rollback theorem applied to the concrete
registry `exStateR`, whose activator registers a service, subscribes a
listener and then raises. -/
theorem bundle_start_rollback_witness :
    ∃ b1, ((runStartHook (updateBundle exStateR 0
          (fun b2 => { b2 with state := BState.STARTING })) 0).1).bundles[0]? = some b1 ∧
      (bundleStart exStateR 0).2.2 =
        some (Err.exception (cannotStartMsg exBundleR.symbolicName)) ∧
      (bundleStart exStateR 0).1.bundles[0]? =
        some { b1 with state := BState.RESOLVED,
                       serviceReferences := [],
                       serviceListeners := [],
                       serviceListenerFilters := [],
                       context := none } ∧
      (bundleStart exStateR 0).2.1 =
        (runStartHook (updateBundle exStateR 0
          (fun b2 => { b2 with state := BState.STARTING })) 0).2.1 ++
        b1.serviceReferences.flatMap (fun r =>
          (fireServiceEvent
            (updateBundle ((runStartHook (updateBundle exStateR 0
                (fun b2 => { b2 with state := BState.STARTING })) 0).1) 0
              (fun b2 => { b2 with state := BState.STOPPING }))
            ⟨SE.UNREGISTERING, r⟩).1) :=
  bundle_start_rollback exStateR 0 exBundleR rfl rfl (by refine ⟨?_, ?_⟩ <;> decide)
    (runStartHook (updateBundle exStateR 0
      (fun b2 => { b2 with state := BState.STARTING })) 0).1
    (runStartHook (updateBundle exStateR 0
      (fun b2 => { b2 with state := BState.STARTING })) 0).2.1
    (Err.activatorErr 3)
    (by rfl)

end Javolution
